import Mathlib

/-!
# A shallow embedding of the EXIN-AST interpreter

This file embeds, in Lean 4, the parts of the EXIN tree-walking interpreter
(C sources: `scanner.c`, `parse.c`, `visit.c`, `object.c`, `number.c`,
`str.c`, `list.c`, `stack.c`) that the verified properties below talk about,
and proves or refutes each property against that embedding.

Modelling conventions:
* C machine integers `int_t` (= `long`, 64-bit) are modelled as `Int` with
  explicit wrap-around (`wrap64`) where arithmetic can overflow; `char_t`
  (= signed `char`) values are `Int` with truncation `toChar_t`.
* `float_t` (`double`) payloads are modelled as `Rat`.  The only float
  operations exercised by the properties are the type-dispatch tests and the
  comparison of a divisor against zero, for which the rational model is exact.
* `raise(kind, ...)` terminates the interpreter with exit status `kind`;
  it is modelled as `Except.error`; C functions that cannot raise are total.
* C `NULL` pointers returned as values are modelled as `Option.none`
  (distinct from the interpreter's NONE object `Obj.none_o`).
* Reference counting only controls deallocation; objects are modelled as
  immutable values, so `obj_copy` (a deep copy) is the identity on the value
  and all `obj_incref`/`obj_decref` calls are invisible in the value model.
-/

set_option linter.unusedVariables false

namespace Exin

/-- C conversion of an integer to `char_t` (signed char): wrap into [-128, 128). -/
def toChar_t (i : Int) : Int := (i + 128) % 256 - 128

/-- C wrap-around of an integer to `int_t` (signed 64-bit `long`). -/
def wrap64 (i : Int) : Int := (i + 2 ^ 63) % 2 ^ 64 - 2 ^ 63

/-- C conversion of a (possibly negative) `int_t` to `size_t` (unsigned 64-bit). -/
def usize64 (i : Int) : Nat := (i % 2 ^ 64).toNat

/-- C truncation of a real value toward zero (cast of `double` to an integer type). -/
def ratTrunc (q : Rat) : Int := if q < 0 then -((-q).floor) else q.floor

/-- C boolean-to-int result value used by the comparison operators. -/
def b2i (b : Bool) : Int := if b then 1 else 0

/-- The error kinds of `error.h`; `raise` exits the process with `Err.code`. -/
inductive Err where
  | NameError | TypeError | SyntaxError | ValueError | SystemError
  | IndexError | OutOfMemoryError | ModNotAllowedError | DivisionByZeroError
  | DesignError
deriving DecidableEq, Repr

/-- The numeric process exit status of each error kind (`error.h`). -/
def Err.code : Err → Nat
  | .NameError => 1 | .TypeError => 2 | .SyntaxError => 3 | .ValueError => 4
  | .SystemError => 5 | .IndexError => 6 | .OutOfMemoryError => 7
  | .ModNotAllowedError => 8 | .DivisionByZeroError => 9 | .DesignError => 10

/-- Why a fueled computation stopped: a raised interpreter error (fatal in C),
exhausted fuel (the C code would still be running), or behaviour outside the
embedded fragment (e.g. undefined behaviour such as dereferencing NULL). -/
inductive Stop where
  | raised (e : Err)
  | fuel
  | unmodeled
deriving DecidableEq, Repr

/-! ## The object model (`object.h`, `object.c`)

Seven object kinds; `LISTNODE` wrappers are unwrapped on entry to every
operation embedded here (`isListNode(op) ? obj_from_listnode(op) : op`), and
list elements are accessed only through that unwrapping, so lists are
modelled directly as lists of the contained objects. -/

inductive Obj where
  | char_o (c : Int)        -- CHAR_T, payload a char_t value
  | int_o (i : Int)         -- INT_T, payload an int_t value
  | float_o (f : Rat)       -- FLOAT_T, payload a double
  | str_o (s : List Char)   -- STR_T, NUL-terminated byte string (no interior NUL)
  | list_o (xs : List Obj)  -- LIST_T, the objects contained in its listnodes
  | none_o                  -- NONE_T singleton
deriving Repr

/-- `isNumber` from `object.h`. -/
def isNumber : Obj → Bool
  | .char_o _ | .int_o _ | .float_o _ => true
  | _ => false

/-- `isString` from `object.h`. -/
def isString : Obj → Bool
  | .str_o _ => true
  | _ => false

/-- `isList` from `object.h`. -/
def isList : Obj → Bool
  | .list_o _ => true
  | _ => false

/-- `isSequence` from `object.h`. -/
def isSequence (o : Obj) : Bool := isList o || isString o

/-- The char_t value of an ASCII byte stored in a STR object. -/
def charVal (c : Char) : Int := toChar_t c.toNat

/-- `obj_as_char` (`object.c`): value of a numeric object as `char_t`.
The STR branch (`str_to_char`) and the error branch are not exercised by any
embedded call site and are mapped to 0 (the C error branch also returns 0). -/
def obj_as_char : Obj → Int
  | .char_o c => c
  | .int_o i => toChar_t i
  | .float_o f => toChar_t (ratTrunc f)
  | _ => 0

/-- `obj_as_int` (`object.c`): value of a numeric object as `int_t`.
The STR branch (`str_to_int`) is not exercised by any embedded call site. -/
def obj_as_int : Obj → Int
  | .char_o c => c
  | .int_o i => i
  | .float_o f => ratTrunc f
  | _ => 0

/-- `obj_as_float` (`object.c`): value of a numeric object as `float_t`. -/
def obj_as_float : Obj → Rat
  | .char_o c => (c : Rat)
  | .int_o i => (i : Rat)
  | .float_o f => f
  | _ => 0

/-- `obj_as_bool` (`object.c`): numbers are true iff nonzero; any other
type raises `ValueError`. -/
def obj_as_bool : Obj → Except Stop Bool
  | .char_o c => .ok (c ≠ 0)
  | .int_o i => .ok (i ≠ 0)
  | .float_o f => .ok (f ≠ 0)
  | _ => .error (.raised .ValueError)

/-! ## Numeric operations (`number.c`) -/

/-- The type tags relevant to numeric coercion. -/
inductive NumT where
  | CHAR_T | INT_T | FLOAT_T
deriving DecidableEq, Repr

/-- `coerce` (`number.c`): result type of an arithmetic operation. -/
def coerce (op1 op2 : Obj) : NumT :=
  if op1 matches .float_o _ then .FLOAT_T
  else if op2 matches .float_o _ then .FLOAT_T
  else if op1 matches .int_o _ then .INT_T
  else if op2 matches .int_o _ then .INT_T
  else .CHAR_T

/-- `number_sub` (`number.c`). -/
def number_sub (op1 op2 : Obj) : Obj :=
  match coerce op1 op2 with
  | .CHAR_T => .char_o (toChar_t (obj_as_char op1 - obj_as_char op2))
  | .INT_T => .int_o (wrap64 (obj_as_int op1 - obj_as_int op2))
  | .FLOAT_T => .float_o (obj_as_float op1 - obj_as_float op2)

/-- `number_mul` (`number.c`). -/
def number_mul (op1 op2 : Obj) : Obj :=
  match coerce op1 op2 with
  | .CHAR_T => .char_o (toChar_t (obj_as_char op1 * obj_as_char op2))
  | .INT_T => .int_o (wrap64 (obj_as_int op1 * obj_as_int op2))
  | .FLOAT_T => .float_o (obj_as_float op1 * obj_as_float op2)

/-- `number_mod` (`number.c`): the zero-divisor test
`obj_as_float(op2) == 0` comes FIRST and raises `DivisionByZeroError`;
only afterwards does the coercion switch raise `ModNotAllowedError` in the
FLOAT_T branch.  `%` on C integers is truncated remainder (`Int.tmod`). -/
def number_mod (op1 op2 : Obj) : Except Stop Obj :=
  if obj_as_float op2 = 0 then .error (.raised .DivisionByZeroError)
  else
    match coerce op1 op2 with
    | .CHAR_T => .ok (.char_o (toChar_t (Int.tmod (obj_as_char op1) (obj_as_char op2))))
    | .INT_T => .ok (.int_o (wrap64 (Int.tmod (obj_as_int op1) (obj_as_int op2))))
    | .FLOAT_T => .error (.raised .ModNotAllowedError)

/-- `number_eql` (`number.c`).  The INT branch condition is transcribed
exactly as in the source: `TYPE(op1) == INT_T || TYPE(op1) == INT_T`
(it tests `op1` twice and never looks at `op2`). -/
def number_eql (op1 op2 : Obj) : Obj :=
  if (op1 matches .float_o _) || (op2 matches .float_o _) then
    .int_o (b2i (obj_as_float op1 == obj_as_float op2))
  else if (op1 matches .int_o _) || (op1 matches .int_o _) then
    .int_o (b2i (obj_as_int op1 == obj_as_int op2))
  else
    .int_o (b2i (obj_as_char op1 == obj_as_char op2))

/-- `number_neq` (`number.c`), with the same transcribed INT branch condition. -/
def number_neq (op1 op2 : Obj) : Obj :=
  if (op1 matches .float_o _) || (op2 matches .float_o _) then
    .int_o (b2i (obj_as_float op1 != obj_as_float op2))
  else if (op1 matches .int_o _) || (op1 matches .int_o _) then
    .int_o (b2i (obj_as_int op1 != obj_as_int op2))
  else
    .int_o (b2i (obj_as_char op1 != obj_as_char op2))

/-- `number_lss` (`number.c`), with the same transcribed INT branch condition. -/
def number_lss (op1 op2 : Obj) : Obj :=
  if (op1 matches .float_o _) || (op2 matches .float_o _) then
    .int_o (b2i (obj_as_float op1 < obj_as_float op2))
  else if (op1 matches .int_o _) || (op1 matches .int_o _) then
    .int_o (b2i (obj_as_int op1 < obj_as_int op2))
  else
    .int_o (b2i (obj_as_char op1 < obj_as_char op2))

/-- `number_leq` (`number.c`), with the same transcribed INT branch condition. -/
def number_leq (op1 op2 : Obj) : Obj :=
  if (op1 matches .float_o _) || (op2 matches .float_o _) then
    .int_o (b2i (obj_as_float op1 ≤ obj_as_float op2))
  else if (op1 matches .int_o _) || (op1 matches .int_o _) then
    .int_o (b2i (obj_as_int op1 ≤ obj_as_int op2))
  else
    .int_o (b2i (obj_as_char op1 ≤ obj_as_char op2))

/-- `number_gtr` (`number.c`), with the same transcribed INT branch condition. -/
def number_gtr (op1 op2 : Obj) : Obj :=
  if (op1 matches .float_o _) || (op2 matches .float_o _) then
    .int_o (b2i (obj_as_float op2 < obj_as_float op1))
  else if (op1 matches .int_o _) || (op1 matches .int_o _) then
    .int_o (b2i (obj_as_int op2 < obj_as_int op1))
  else
    .int_o (b2i (obj_as_char op2 < obj_as_char op1))

/-- `number_geq` (`number.c`), with the same transcribed INT branch condition. -/
def number_geq (op1 op2 : Obj) : Obj :=
  if (op1 matches .float_o _) || (op2 matches .float_o _) then
    .int_o (b2i (obj_as_float op2 ≤ obj_as_float op1))
  else if (op1 matches .int_o _) || (op1 matches .int_o _) then
    .int_o (b2i (obj_as_int op2 ≤ obj_as_int op1))
  else
    .int_o (b2i (obj_as_char op2 ≤ obj_as_char op1))

/-! ## Equality dispatch (`object.c`, `str.c`, `list.c`) -/

/-- `str_eql` (`str.c`): `strcmp` equality of the two byte strings. -/
def str_eql (s1 s2 : List Char) : Obj := .int_o (b2i (s1 == s2))

mutual

/-- `obj_eql` (`object.c`): numbers via `number_eql`, strings via `str_eql`,
lists via `list_eql`, operands of different types are by definition not
equal (INT 0).  LISTNODE operands are already unwrapped in this model. -/
def obj_eql (op1 op2 : Obj) : Obj :=
  if isNumber op1 && isNumber op2 then number_eql op1 op2
  else
    match op1, op2 with
    | .str_o s1, .str_o s2 => str_eql s1 s2
    | .list_o xs, .list_o ys => list_eql xs ys
    | _, _ => .int_o 0

/-- `list_eql` (`list.c`): INT 1 iff `list_cmp` holds. -/
def list_eql (xs ys : List Obj) : Obj := .int_o (b2i (list_cmp xs ys))

/-- `list_cmp` (`list.c`): equal lengths and element-wise `obj_eql`
(an element comparison that raises would exit the process; the embedded
element kinds never raise in `obj_eql`, whose result is always an INT,
so `obj_as_bool` of it is its nonzero-ness). -/
def list_cmp (xs ys : List Obj) : Bool :=
  match xs, ys with
  | [], [] => true
  | x :: xs1, y :: ys1 =>
    (obj_as_int (obj_eql x y) ≠ 0) && list_cmp xs1 ys1
  | _, _ => false

end

/-- `obj_length` (`object.c`): item count of a STR or LIST sequence
(`TypeError` otherwise). -/
def obj_length : Obj → Except Stop Int
  | .str_o s => .ok s.length
  | .list_o xs => .ok xs.length
  | _ => .error (.raised .TypeError)

/-- `str_item` (`str.c`): negative index counts from the end; out of range
raises `IndexError`; returns a new CHAR object of the selected byte. -/
def str_item (s : List Char) (index : Int) : Except Stop Obj :=
  let len : Int := s.length
  let i := if index < 0 then index + len else index
  if i < 0 ∨ i ≥ len then .error (.raised .IndexError)
  else .ok (.char_o (charVal (s.getD i.toNat ' ')))

/-- `list_item` (`list.c`): negative index counts from the end; out of range
raises `IndexError`.  The C function returns the listnode (with its refcount
incremented); the model returns the contained object, which is how every
embedded caller consumes it after unwrapping. -/
def list_item (xs : List Obj) (index : Int) : Except Stop Obj :=
  let len : Int := xs.length
  let i := if index < 0 then index + len else index
  if i < 0 ∨ i ≥ len then .error (.raised .IndexError)
  else .ok (xs.getD i.toNat .none_o)

/-- `obj_item` (`object.c`): dispatch to `str_item`/`list_item`,
`TypeError` for non-sequences. -/
def obj_item : Obj → Int → Except Stop Obj
  | .str_o s, i => str_item s i
  | .list_o xs, i => list_item xs i
  | _, _ => .error (.raised .TypeError)

/-- The scan loop of `obj_in` (`object.c`): `result` starts as NULL
(`Option.none`); each iteration replaces it by `obj_eql(op1, item)` and
breaks when that comparison is INT 1. -/
def obj_in_scan (op1 : Obj) (items : List Obj) (result : Option Obj) : Option Obj :=
  match items with
  | [] => result
  | item :: rest =>
    let r := obj_eql op1 item
    if obj_as_int r = 1 then some r else obj_in_scan op1 rest (some r)

/-- `obj_in` (`object.c`): the right operand must be a sequence
(`TypeError` otherwise); scans the items with `obj_eql`.  When the sequence
is empty the loop never runs and the function returns its initial
`result = NULL` (modelled as `Option.none`), not an object. -/
def obj_in (op1 op2 : Obj) : Except Stop (Option Obj) :=
  if isSequence op2 = false then .error (.raised .TypeError)
  else
    match op2 with
    | .str_o s => .ok (obj_in_scan op1 (s.map (fun c => .char_o (charVal c))) none)
    | .list_o xs => .ok (obj_in_scan op1 xs none)
    | _ => .error (.raised .TypeError)

/-! ## Slicing (`str.c`, `list.c`, `strndup.c`) -/

/-- `strndup` (`strndup.c`): copy at most `n` bytes of the NUL-terminated
string `s`; the copied length is `min n (strlen s)`. -/
def strndup (s : List Char) (n : Nat) : List Char := s.take (min n s.length)

/-- `str_slice` (`str.c`).  Negative bounds are shifted by `len`; `start`
is clamped below at 0, `end` is clamped above at `len`; then the result is
`strndup(sptr + start, end - start)`, where `end - start` is converted to
the unsigned `size_t` (wrapping if negative).  When `start > len` the C
code reads past the end of the buffer (undefined behaviour): that case is
modelled as `Option.none`. -/
def str_slice (s : List Char) (start0 end0 : Int) : Option Obj :=
  let len : Int := s.length
  let start1 := if start0 < 0 then start0 + len else start0
  let end1 := if end0 < 0 then end0 + len else end0
  let start2 := if start1 < 0 then 0 else start1
  let end2 := if end1 ≥ len then len else end1
  if start2 > len then none
  else some (.str_o (strndup (s.drop start2.toNat) (usize64 (end2 - start2))))

/-- `obj_copy` (`object.c`): a deep copy of a value; in the immutable value
model the copy is the value itself. -/
def obj_copy (o : Obj) : Obj := o

/-- The collection loop of `list_slice` (`list.c`): for `i` from `start`
while `i < end`, append a deep copy of the `i`-th contained object.  All
indices passed to `list_item` lie in `[0, len)` whenever the loop runs,
because `start ≥ 0` and `end ≤ len` there; an `IndexError` would exit the
process and is propagated. -/
def list_slice_loop (xs : List Obj) (i end2 : Int) (fuel : Nat) :
    Except Stop (List Obj) :=
  match fuel with
  | 0 => .error .fuel
  | fuel + 1 =>
    if i < end2 then do
      let item ← list_item xs i
      let rest ← list_slice_loop xs (i + 1) end2 fuel
      return obj_copy item :: rest
    else
      return []

/-- `list_slice` (`list.c`): same bound normalisation as `str_slice`, then
an index loop copying items `start ≤ i < end`. -/
def list_slice (xs : List Obj) (start0 end0 : Int) : Except Stop Obj := do
  let len : Int := xs.length
  let start1 := if start0 < 0 then start0 + len else start0
  let end1 := if end0 < 0 then end0 + len else end0
  let start2 := if start1 < 0 then 0 else start1
  let end2 := if end1 ≥ len then len else end1
  let elems ← list_slice_loop xs start2 end2 (xs.length + 1)
  return .list_o elems

/-! ## The operand stack (`stack.c`)

`Stack` stores void pointers; `array` models the cells `0 .. top` that hold
stacked pointers (the remaining allocated capacity holds no meaningful
data).  `realloc` in `push`/`pop` changes only the allocation size, never
the stored pointers, so it does not appear in the value model. -/

structure Stack where
  capacity : Int
  top : Int            -- index of the top element; -1 means empty
  array : List Obj     -- cells 0 .. top (cell i at position i)
deriving Repr

/-- `is_empty` (`stack.c`): a stack is empty when `top` equals -1. -/
def is_empty (s : Stack) : Bool := s.top == -1

/-- `pop` (`stack.c`): on an empty stack return NULL at once (the stack is
untouched); otherwise return `array[top]` and decrement `top`.  The
shrink branch only calls `realloc`, which cannot change the cells. -/
def pop (s : Stack) : Option Obj × Stack :=
  if is_empty s then (none, s)
  else (s.array.getD s.top.toNat .none_o, { s with top := s.top - 1 })

/-- `peek` (`stack.c`): on an empty stack return NULL; otherwise
`array[top]` without removing it. -/
def peek (s : Stack) : Option Obj :=
  if is_empty s then none
  else some (s.array.getD s.top.toNat .none_o)

/-- `stack_alloc` (`stack.c`): minimum stack size is 0; `top = -1` marks
the empty stack. -/
def stack_alloc (capacity : Int) : Stack :=
  { capacity := if capacity < 0 then 0 else capacity, top := -1, array := [] }

/-! ## The module reader (`module.c`) and scanner (`scanner.c`) -/

/-- A loaded module: the code buffer (with the trailing newline already
appended by `load`) plus the read position, beginning-of-line offset and
line number. -/
structure ModuleState where
  code : List Char
  pos : Nat
  bol : Nat
  lineno : Nat
deriving Repr

/-- `nextch` (`module.c`): at the end of the buffer return EOF (`none`);
otherwise record a new beginning-of-line when the previously read character
was a newline, and return the character at `pos`, advancing. -/
def nextch (m : ModuleState) : Option Char × ModuleState :=
  if h : m.pos ≥ m.code.length then (none, m)
  else
    let m' :=
      if m.pos > 0 ∧ m.code.getD (m.pos - 1) ' ' = '\n' then
        { m with bol := m.pos, lineno := m.lineno + 1 }
      else m
    (some (m.code.getD m.pos ' '), { m' with pos := m.pos + 1 })

/-- `peekch` (`module.c`). -/
def peekch (m : ModuleState) : Option Char :=
  if m.pos ≥ m.code.length then none else some (m.code.getD m.pos ' ')

/-- `pushch` (`module.c`): undo one `nextch` (the pushed-back character must
be the one at the new position; `lineno` is corrected when backing over a
newline boundary). -/
def pushch (m : ModuleState) : ModuleState :=
  if m.pos > 0 then
    let p := m.pos - 1
    if p > 0 ∧ m.code.getD (p - 1) ' ' = '\n' then
      { m with pos := p, lineno := m.lineno - 1 }
    else { m with pos := p }
  else m

/-- `BUFSIZE` (`config.h`): maximum lexeme length including the
terminating NUL; `read_next_token` passes it as `bufsize`. -/
def BUFSIZE : Nat := 128

/-- The escape switch inside `read_string` (`scanner.c`): the recognised
escapes after a backslash.  Any other character is not consumed and the
backslash itself is kept. -/
def stringEscape (c : Char) : Option Char :=
  if c = '0' then some (Char.ofNat 0)
  else if c = 'a' then some (Char.ofNat 7)
  else if c = 'b' then some (Char.ofNat 8)
  else if c = 'f' then some (Char.ofNat 12)
  else if c = 'n' then some '\n'
  else if c = 'r' then some (Char.ofNat 13)
  else if c = 't' then some '\t'
  else if c = 'v' then some (Char.ofNat 11)
  else if c = '\\' then some '\\'
  else if c = '\'' then some '\''
  else if c = '"' then some '"'
  else none

/-- `read_string` (`scanner.c`), operating on the remaining input after the
opening quote (`nextch` returns the head, EOF when the list is empty).
Characters are stored while `count < bufsize`; reading continues either way.
The loop ends at a closing `"` or at EOF — EOF raises nothing.  Returns the
stored lexeme and the input remaining after the loop. -/
def read_string (bufsize : Nat) : List Char → Nat → List Char → List Char × List Char
  | [], _, acc => (acc.reverse, [])
  | '"' :: rest, _, acc => (acc.reverse, rest)
  | '\\' :: c :: r, count, acc =>
    -- `peekch` sees `c`; a recognised escape consumes it and stores the
    -- translated character, otherwise the backslash itself is stored
    match stringEscape c with
    | some e =>
      if count < bufsize then read_string bufsize r (count + 1) (e :: acc)
      else read_string bufsize r count acc
    | none =>
      if count < bufsize then read_string bufsize (c :: r) (count + 1) ('\\' :: acc)
      else read_string bufsize (c :: r) count acc
  | ['\\'], count, acc =>
    -- `peekch` returns EOF: the switch matches nothing, the backslash is stored
    if count < bufsize then read_string bufsize [] (count + 1) ('\\' :: acc)
    else read_string bufsize [] count acc
  | ch :: rest, count, acc =>
    if count < bufsize then read_string bufsize rest (count + 1) (ch :: acc)
    else read_string bufsize rest count acc

/-- `TABSIZE` (`config.h`): default tab size. -/
def TABSIZE : Nat := 4

/-- `MAXINDENT` (`config.h`): maximum number of indents. -/
def MAXINDENT : Nat := 132

/-- Tokens produced by the indentation phase of `read_next_token`. -/
inductive IndentTok where
  | INDENT | DEDENT | ENDMARKER
deriving DecidableEq, Repr

/-- Scanner-raised syntax errors in the indentation phase; both are
`raise(SyntaxError, ...)` (exit status 3) with the given message. -/
inductive ScanErr where
  | maxIndentation      -- "max indentation level reached"
  | inconsistentDent    -- "inconsistent use of TAB and space in indentation"
deriving DecidableEq, Repr

/-- Why the fueled scanner fragment stopped: a raised `SyntaxError` with
one of the two messages, or exhausted fuel. -/
inductive ScanStop where
  | raised (e : ScanErr)
  | fuel
deriving DecidableEq, Repr

/-- The leading-whitespace loop of `read_next_token` (`scanner.c`): count
spaces, advance tabs to the next multiple of the tab size, and stop at (and
consume) the first other character.  Returns the column, the stopping
character (`none` = EOF) and the module state after consuming it. -/
def countIndent (tabsize : Nat) (m : ModuleState) (col : Nat) (fuel : Nat) :
    Except ScanStop (Nat × Option Char × ModuleState) :=
  match fuel with
  | 0 => .error .fuel
  | fuel + 1 =>
    match nextch m with
    | (some ' ', m') => countIndent tabsize m' (col + 1) fuel
    | (some '\t', m') => countIndent tabsize m' ((col / tabsize + 1) * tabsize) fuel
    | (ch, m') => .ok (col, ch, m')

/-- The comment-skipping loop of `read_next_token`: read until a newline or
EOF; the stopping character becomes the current character. -/
def skipComment (m : ModuleState) (fuel : Nat) :
    Except ScanStop (Option Char × ModuleState) :=
  match fuel with
  | 0 => .error .fuel
  | fuel + 1 =>
    match nextch m with
    | (some '\n', m') => .ok (some '\n', m')
    | (none, m') => .ok (none, m')
    | (some _, m') => skipComment m' fuel

/-- The scanner state used by the indentation phase: the module reader,
the beginning-of-line flag, and the indentation column stack.
The C code keeps `int indentation[MAXINDENT]` plus an index `indentlevel`,
initialised with `indentlevel = 0` and `indentation[0] = 0`; `stack` models
the live slice `indentation[indentlevel], ..., indentation[0]` (top first),
so `stack.headD 0 = indentation[indentlevel]`, pushing a column models
`indentation[++indentlevel] = col`, and `--indentlevel < 0` — the condition
guarding the "inconsistent use of TAB and space" error — is reached exactly
when the tail of `stack` is empty.  Columns are counts of leading
whitespace, hence `Nat`. -/
structure ScanState where
  module : ModuleState
  at_bol : Bool
  stack : List Nat
  tabsize : Nat
deriving Repr

/-- The column comparison at the end of the indentation phase (the
`if (col == ...) ... else if (col > ...) ... else ...` chain of
`read_next_token`, `scanner.c` lines 443-458). -/
def indent_compare (st : ScanState) (col : Nat) :
    Except ScanStop (Option IndentTok × ScanState) :=
  if col = st.stack.headD 0 then
    .ok (none, st)      -- indentation unchanged: break, read a normal token
  else if col > st.stack.headD 0 then
    if st.stack.length = MAXINDENT + 1 then .error (.raised .maxIndentation)
    else .ok (some .INDENT, { st with stack := col :: st.stack })
  else
    match st.stack with
    | [] => .error (.raised .inconsistentDent)   -- (no live entry at all)
    | _ :: rest =>
      match rest with
      | [] =>
        -- --indentlevel < 0: "inconsistent use of TAB and space in indentation"
        .error (.raised .inconsistentDent)
      | newtop :: _ =>
        if col ≠ newtop then
          .ok (some .DEDENT,
               { st with stack := rest, at_bol := true,
                         module := { st.module with pos := st.module.bol } })
        else
          .ok (some .DEDENT, { st with stack := rest })

/-- The indentation phase of `read_next_token` (`scanner.c`, the
`while (scanner.at_bol == true)` loop).  Returns `some tok` when the phase
emits INDENT/DEDENT/ENDMARKER and `none` when control falls through to
ordinary token reading.  Transcribed branch by branch: blank and
comment-only lines are skipped; at EOF the column becomes 0 and ENDMARKER
is returned when it matches the stack top; otherwise control falls to
`indent_compare`, which pushes an increased column (INDENT) and pops one
level for a decreased column (DEDENT), rewinding the reader to the
beginning of the line (`pos = bol`, `at_bol` set) when the new top still
differs so that the next call re-processes the same line. -/
def indent_phase (st : ScanState) (fuel : Nat) :
    Except ScanStop (Option IndentTok × ScanState) :=
  match fuel with
  | 0 => .error .fuel
  | fuel + 1 =>
    if st.at_bol = false then .ok (none, st)
    else do
      let st := { st with at_bol := false }
      let (col, ch0, m0) ← countIndent st.tabsize st.module 0 fuel
      let (ch1, m1) ← if ch0 = some '#' then skipComment m0 fuel else pure (ch0, m0)
      let (ch2, m2) := if ch1 = some '\r' then nextch m1 else (ch1, m1)
      match ch2 with
      | some '\n' =>
        indent_phase { st with module := m2, at_bol := true } fuel
      | none =>
        -- ch == EOF: col = 0; ENDMARKER when already at level 0, else
        -- fall through to the comparison with the stack top
        if 0 = st.stack.headD 0 then
          .ok (some .ENDMARKER, { st with module := m2 })
        else
          indent_compare { st with module := m2 } 0
      | some c =>
        let m3 := pushch m2
        indent_compare { st with module := m3 } col

/-! ## The AST (`ast.h`) -/

/-- `variabletype_t` (`ast.h`). -/
inductive VarType where
  | VT_CHAR | VT_INT | VT_FLOAT | VT_STR | VT_LIST
deriving DecidableEq, Repr

/-- The binary operator discriminants (`ast.h`). -/
inductive BinOp where
  | ADD | SUB | MUL | DIV | MOD
  | LSS | LEQ | GTR | GEQ | EQ | NEQ
  | OP_IN | LOGICAL_AND | LOGICAL_OR
deriving DecidableEq, Repr

/-- The unary operator discriminants (`ast.h`). -/
inductive UnOp where
  | UNOT | UMINUS | UPLUS
deriving DecidableEq, Repr

/-- The assignment operator discriminants (`ast.h`). -/
inductive AsgnOp where
  | ASSIGN | ADDASSIGN | SUBASSIGN | MULASSIGN | DIVASSIGN | MODASSIGN
deriving DecidableEq, Repr

/-- AST nodes (`ast.h`), restricted to the node kinds the verified
properties exercise.  A node's optional `.method` suffix (name plus
argument list, set by `trailer`) is modelled by the explicit wrapper
constructor `method_suffix`.  Statement kinds with no bearing on the
properties (`while`/`do`/`for` loops, variable declarations, `input`,
`import`, `pass`, `break`, `continue`) are omitted; no embedded program
contains them. -/
inductive Node where
  | literal (t : VarType) (lexeme : String)
  | unary (op : UnOp) (operand : Node)
  | binary (op : BinOp) (left right : Node)
  | comma_expr (expressions : List Node)
  | arglist (arguments : List Node)
  | reference (name : String)
  | function_call (name : String) (builtin : Bool) (arguments : List Node)
  | index (sequence subscript : Node)
  | slice (sequence start stop : Node)
  | assignment (op : AsgnOp) (target expression : Node)
  | method_suffix (base : Node) (name : String) (arguments : List Node)
  | block (statements : List Node)
  | if_stmnt (condition : Node) (consequent : Node) (alternative : Option Node)
  | return_stmnt (value : Option Node)
  | print_stmnt (raw : Bool) (expressions : List Node)
  | expression_stmnt (expression : Node)
  | function_declaration (name : String) (arguments : List String) (body : Node)
deriving Repr

/-! ## The expression parser (`parse.c`) -/

/-- The scanner tokens the expression parser dispatches on (`scanner.h`);
literal and identifier tokens carry their lexeme. -/
inductive Tok where
  | CHAR (lexeme : String) | INT (lexeme : String)
  | FLOAT (lexeme : String) | STR (lexeme : String)
  | IDENTIFIER (lexeme : String)
  | LPAR | RPAR | LSQB | RSQB | COMMA | DOT | COLON
  | PLUS | MINUS | STAR | SLASH | PERCENT
  | EQUAL | PLUSEQUAL | MINUSEQUAL | STAREQUAL | SLASHEQUAL | PERCENTEQUAL
  | EQEQUAL | NOTEQUAL | LESS | GREATER | LESSEQUAL | GREATEREQUAL
  | NOT | AND | OR | IN
  | NEWLINE | INDENT | DEDENT | ENDMARKER
deriving DecidableEq, Repr

/-- `is_builtin` (`function.c`): the built-in registry holds `chr`, `ord`
and `type`. -/
def is_builtin (name : String) : Bool :=
  name = "chr" || name = "ord" || name = "type"

/-- The parser's view of the scanner: the current token (`scanner.token`)
plus the tokens still to come; `scanner.next()` advances (an exhausted
stream keeps yielding ENDMARKER). -/
structure PState where
  token : Tok
  rest : List Tok
deriving DecidableEq, Repr

/-- `scanner.next()` as seen by the parser. -/
def pnext (s : PState) : PState :=
  { token := s.rest.headD .ENDMARKER, rest := s.rest.tail }

/-- Prime the parser on a token stream. -/
def mkPState (ts : List Tok) : PState :=
  { token := ts.headD .ENDMARKER, rest := ts.tail }

/-- `accept` (`parse.c`): consume the current token iff it matches. -/
def accept (t : Tok) (s : PState) : Bool × PState :=
  if s.token = t then (true, pnext s) else (false, s)

/-- `expect` (`parse.c`): like `accept` but a mismatch raises `SyntaxError`. -/
def expect (t : Tok) (s : PState) : Except Stop PState :=
  if s.token = t then .ok (pnext s) else .error (.raised .SyntaxError)

/-- `INT_MAX` printed with `%ld` — the default end bound of a slice. -/
def INT_MAX_STR : String := "2147483647"

mutual

/-- `primary_expr` (`parse.c`): literals, list displays, identifiers
(references or calls), parenthesised expressions; every result passes
through `trailer`. -/
def primary_expr (fuel : Nat) (s : PState) : Except Stop (Node × PState) :=
  match fuel with
  | 0 => .error .fuel
  | fuel + 1 => do
    match s.token with
    | .CHAR lex => trailer fuel (.literal .VT_CHAR lex) (pnext s)
    | .INT lex => trailer fuel (.literal .VT_INT lex) (pnext s)
    | .FLOAT lex => trailer fuel (.literal .VT_FLOAT lex) (pnext s)
    | .STR lex => trailer fuel (.literal .VT_STR lex) (pnext s)
    | .LSQB =>
      let s := pnext s
      match accept .RSQB s with
      | (true, s') => trailer fuel (.arglist []) s'
      | (false, s') => do
        let (args, s'') ← arglist_items fuel [] s'
        trailer fuel (.arglist args) s''
    | .IDENTIFIER name =>
      let s := pnext s
      match accept .LPAR s with
      | (true, s') =>
        (match accept .RPAR s' with
         | (true, s'') => trailer fuel (.function_call name (is_builtin name) []) s''
         | (false, s'') => do
           let (args, s3) ← call_args fuel [] s''
           trailer fuel (.function_call name (is_builtin name) args) s3)
      | (false, _) => trailer fuel (.reference name) s
    | .LPAR => do
      let s := pnext s
      let (n, s') ← comma_expr fuel s
      let s'' ← expect .RPAR s'
      trailer fuel n s''
    | _ => .error (.raised .SyntaxError)   -- "expression expected"

/-- The comma-separated element loop shared by list displays
(`primary_expr`, `[e0, e1, ...]`): `assignment_expr` items until `]`. -/
def arglist_items (fuel : Nat) (acc : List Node) (s : PState) :
    Except Stop (List Node × PState) :=
  match fuel with
  | 0 => .error .fuel
  | fuel + 1 => do
    let (n, s') ← assignment_expr fuel s
    if s'.token = .RSQB then
      let s'' ← expect .RSQB s'
      .ok (acc ++ [n], s'')
    else do
      let s'' ← expect .COMMA s'
      arglist_items fuel (acc ++ [n]) s''

/-- The actual-argument loop of a call in `primary_expr`:
`assignment_expr` items until `)`. -/
def call_args (fuel : Nat) (acc : List Node) (s : PState) :
    Except Stop (List Node × PState) :=
  match fuel with
  | 0 => .error .fuel
  | fuel + 1 => do
    let (n, s') ← assignment_expr fuel s
    if s'.token = .RPAR then
      let s'' ← expect .RPAR s'
      .ok (acc ++ [n], s'')
    else do
      let s'' ← expect .COMMA s'
      call_args fuel (acc ++ [n]) s''

/-- The method-argument loop of `trailer`: `logical_or_expr` items until `)`. -/
def method_args (fuel : Nat) (acc : List Node) (s : PState) :
    Except Stop (List Node × PState) :=
  match fuel with
  | 0 => .error .fuel
  | fuel + 1 => do
    let (n, s') ← logical_or_expr fuel s
    if s'.token = .RPAR then
      let s'' ← expect .RPAR s'
      .ok (acc ++ [n], s'')
    else do
      let s'' ← expect .COMMA s'
      method_args fuel (acc ++ [n]) s''

/-- The subscript chain of `trailer` (`parse.c`): `[index]` or
`[start:end]` with defaulted bounds, repeated while `[` follows. -/
def subscripts (fuel : Nat) (n : Node) (s : PState) :
    Except Stop (Node × PState) :=
  match fuel with
  | 0 => .error .fuel
  | fuel + 1 => do
    let (isSlice1, start, s1) ←
      match accept .COLON s with
      | (true, s') => pure (true, Node.literal .VT_INT "0", s')
      | (false, s') => do
        let (e, s'') ← logical_or_expr fuel s'
        pure (false, e, s'')
    let (isSlice2, s2) :=
      match accept .COLON s1 with
      | (true, s') => (true, s')
      | (false, s') => (isSlice1, s')
    let (nd, s4) ←
      match accept .RSQB s2 with
      | (true, s3) =>
        if isSlice2 then
          pure (Node.slice n start (.literal .VT_INT INT_MAX_STR), s3)
        else pure (Node.index n start, s3)
      | (false, _) => do
        let (e, s3) ← logical_or_expr fuel s2
        let s3' ← expect .RSQB s3
        if isSlice2 then pure (Node.slice n start e, s3')
        else pure (Node.index n start, s3')
    match accept .LSQB s4 with
    | (true, s5) => subscripts fuel nd s5
    | (false, s5) => .ok (nd, s5)

/-- `trailer` (`parse.c`): optional subscripts, then an optional
`.method(args)` suffix attached to the resulting node. -/
def trailer (fuel : Nat) (n : Node) (s : PState) : Except Stop (Node × PState) :=
  match fuel with
  | 0 => .error .fuel
  | fuel + 1 => do
    let (n1, s1) ←
      match accept .LSQB s with
      | (true, s') => subscripts fuel n s'
      | (false, s') => pure (n, s')
    match accept .DOT s1 with
    | (false, s2) => .ok (n1, s2)
    | (true, s2) =>
      match s2.token with
      | .IDENTIFIER name =>
        let s3 := pnext s2   -- expect(IDENTIFIER)
        (do
          let s4 ← expect .LPAR s3
          match accept .RPAR s4 with
          | (true, s5) => .ok (Node.method_suffix n1 name [], s5)
          | (false, s5) => do
            let (args, s6) ← method_args fuel [] s5
            .ok (Node.method_suffix n1 name args, s6))
      | _ => .error (.raised .SyntaxError)   -- "expected method"

/-- `unary_expr` (`parse.c`). -/
def unary_expr (fuel : Nat) (s : PState) : Except Stop (Node × PState) :=
  match fuel with
  | 0 => .error .fuel
  | fuel + 1 => do
    match accept .NOT s with
    | (true, s') => do
      let (n, s'') ← primary_expr fuel s'
      .ok (.unary .UNOT n, s'')
    | (false, _) =>
      match accept .MINUS s with
      | (true, s') => do
        let (n, s'') ← primary_expr fuel s'
        .ok (.unary .UMINUS n, s'')
      | (false, _) =>
        match accept .PLUS s with
        | (true, s') => do
          let (n, s'') ← primary_expr fuel s'
          .ok (.unary .UPLUS n, s'')
        | (false, _) => primary_expr fuel s

/-- The `*` `/` `%` loop of `multiplication_expr` (`parse.c`); the right
operand of each step is `unary_expr` (left-associative chaining). -/
def multiplication_loop (fuel : Nat) (value : Node) (s : PState) :
    Except Stop (Node × PState) :=
  match fuel with
  | 0 => .error .fuel
  | fuel + 1 =>
    match accept .STAR s with
    | (true, s') => do
      let (r, s'') ← unary_expr fuel s'
      multiplication_loop fuel (.binary .MUL value r) s''
    | (false, _) =>
      match accept .SLASH s with
      | (true, s') => do
        let (r, s'') ← unary_expr fuel s'
        multiplication_loop fuel (.binary .DIV value r) s''
      | (false, _) =>
        match accept .PERCENT s with
        | (true, s') => do
          let (r, s'') ← unary_expr fuel s'
          multiplication_loop fuel (.binary .MOD value r) s''
        | (false, s1) => .ok (value, s1)

/-- `multiplication_expr` (`parse.c`). -/
def multiplication_expr (fuel : Nat) (s : PState) : Except Stop (Node × PState) :=
  match fuel with
  | 0 => .error .fuel
  | fuel + 1 => do
    let (v, s') ← unary_expr fuel s
    multiplication_loop fuel v s'

/-- The `+` `-` loop of `addition_expr` (`parse.c`); the right operand of
each step is `multiplication_expr` (left-associative chaining). -/
def addition_loop (fuel : Nat) (value : Node) (s : PState) :
    Except Stop (Node × PState) :=
  match fuel with
  | 0 => .error .fuel
  | fuel + 1 =>
    match accept .PLUS s with
    | (true, s') => do
      let (r, s'') ← multiplication_expr fuel s'
      addition_loop fuel (.binary .ADD value r) s''
    | (false, _) =>
      match accept .MINUS s with
      | (true, s') => do
        let (r, s'') ← multiplication_expr fuel s'
        addition_loop fuel (.binary .SUB value r) s''
      | (false, s1) => .ok (value, s1)

/-- `addition_expr` (`parse.c`). -/
def addition_expr (fuel : Nat) (s : PState) : Except Stop (Node × PState) :=
  match fuel with
  | 0 => .error .fuel
  | fuel + 1 => do
    let (v, s') ← addition_loop_entry fuel s
    pure (v, s')

/-- Body of `addition_expr`: parse the first operand, then loop. -/
def addition_loop_entry (fuel : Nat) (s : PState) : Except Stop (Node × PState) :=
  match fuel with
  | 0 => .error .fuel
  | fuel + 1 => do
    let (v, s') ← multiplication_expr fuel s
    addition_loop fuel v s'

/-- The `<` `<=` `>` `>=` loop of `relational_expr` (`parse.c`).  NOTE:
transcribed exactly from the source — the right operand of each step is a
recursive call to `relational_expr` itself (the same precedence level), not
to `addition_expr`. -/
def relational_loop (fuel : Nat) (value : Node) (s : PState) :
    Except Stop (Node × PState) :=
  match fuel with
  | 0 => .error .fuel
  | fuel + 1 =>
    match accept .LESS s with
    | (true, s') => do
      let (r, s'') ← relational_expr fuel s'
      relational_loop fuel (.binary .LSS value r) s''
    | (false, _) =>
      match accept .LESSEQUAL s with
      | (true, s') => do
        let (r, s'') ← relational_expr fuel s'
        relational_loop fuel (.binary .LEQ value r) s''
      | (false, _) =>
        match accept .GREATER s with
        | (true, s') => do
          let (r, s'') ← relational_expr fuel s'
          relational_loop fuel (.binary .GTR value r) s''
        | (false, _) =>
          match accept .GREATEREQUAL s with
          | (true, s') => do
            let (r, s'') ← relational_expr fuel s'
            relational_loop fuel (.binary .GEQ value r) s''
          | (false, s1) => .ok (value, s1)

/-- `relational_expr` (`parse.c`). -/
def relational_expr (fuel : Nat) (s : PState) : Except Stop (Node × PState) :=
  match fuel with
  | 0 => .error .fuel
  | fuel + 1 => do
    let (v, s') ← addition_expr fuel s
    relational_loop fuel v s'

/-- The `==` `!=` `in` loop of `equality_expr` (`parse.c`); the right
operand of each step is `relational_expr` (one level up). -/
def equality_loop (fuel : Nat) (value : Node) (s : PState) :
    Except Stop (Node × PState) :=
  match fuel with
  | 0 => .error .fuel
  | fuel + 1 =>
    match accept .EQEQUAL s with
    | (true, s') => do
      let (r, s'') ← relational_expr fuel s'
      equality_loop fuel (.binary .EQ value r) s''
    | (false, _) =>
      match accept .NOTEQUAL s with
      | (true, s') => do
        let (r, s'') ← relational_expr fuel s'
        equality_loop fuel (.binary .NEQ value r) s''
      | (false, _) =>
        match accept .IN s with
        | (true, s') => do
          let (r, s'') ← relational_expr fuel s'
          equality_loop fuel (.binary .OP_IN value r) s''
        | (false, s1) => .ok (value, s1)

/-- `equality_expr` (`parse.c`). -/
def equality_expr (fuel : Nat) (s : PState) : Except Stop (Node × PState) :=
  match fuel with
  | 0 => .error .fuel
  | fuel + 1 => do
    let (v, s') ← relational_expr fuel s
    equality_loop fuel v s'

/-- The `and` loop of `logical_and_expr` (`parse.c`); the right operand is
a recursive call to `logical_and_expr` itself, as in the source. -/
def logical_and_loop (fuel : Nat) (value : Node) (s : PState) :
    Except Stop (Node × PState) :=
  match fuel with
  | 0 => .error .fuel
  | fuel + 1 =>
    match accept .AND s with
    | (true, s') => do
      let (r, s'') ← logical_and_expr fuel s'
      logical_and_loop fuel (.binary .LOGICAL_AND value r) s''
    | (false, s1) => .ok (value, s1)

/-- `logical_and_expr` (`parse.c`). -/
def logical_and_expr (fuel : Nat) (s : PState) : Except Stop (Node × PState) :=
  match fuel with
  | 0 => .error .fuel
  | fuel + 1 => do
    let (v, s') ← equality_expr fuel s
    logical_and_loop fuel v s'

/-- The `or` loop of `logical_or_expr` (`parse.c`); the right operand is a
recursive call to `logical_or_expr` itself, as in the source. -/
def logical_or_loop (fuel : Nat) (value : Node) (s : PState) :
    Except Stop (Node × PState) :=
  match fuel with
  | 0 => .error .fuel
  | fuel + 1 =>
    match accept .OR s with
    | (true, s') => do
      let (r, s'') ← logical_or_expr fuel s'
      logical_or_loop fuel (.binary .LOGICAL_OR value r) s''
    | (false, s1) => .ok (value, s1)

/-- `logical_or_expr` (`parse.c`). -/
def logical_or_expr (fuel : Nat) (s : PState) : Except Stop (Node × PState) :=
  match fuel with
  | 0 => .error .fuel
  | fuel + 1 => do
    let (v, s') ← logical_and_expr fuel s
    logical_or_loop fuel v s'

/-- The assignment-operator loop of `assignment_expr` (`parse.c`); `=`
takes an `assignment_expr` right operand (right-associative), the compound
operators take a `logical_or_expr` right operand. -/
def assignment_loop (fuel : Nat) (value : Node) (s : PState) :
    Except Stop (Node × PState) :=
  match fuel with
  | 0 => .error .fuel
  | fuel + 1 =>
    match accept .EQUAL s with
    | (true, s') => do
      let (r, s'') ← assignment_expr fuel s'
      assignment_loop fuel (.assignment .ASSIGN value r) s''
    | (false, _) =>
      match accept .PLUSEQUAL s with
      | (true, s') => do
        let (r, s'') ← logical_or_expr fuel s'
        assignment_loop fuel (.assignment .ADDASSIGN value r) s''
      | (false, _) =>
        match accept .MINUSEQUAL s with
        | (true, s') => do
          let (r, s'') ← logical_or_expr fuel s'
          assignment_loop fuel (.assignment .SUBASSIGN value r) s''
        | (false, _) =>
          match accept .STAREQUAL s with
          | (true, s') => do
            let (r, s'') ← logical_or_expr fuel s'
            assignment_loop fuel (.assignment .MULASSIGN value r) s''
          | (false, _) =>
            match accept .SLASHEQUAL s with
            | (true, s') => do
              let (r, s'') ← logical_or_expr fuel s'
              assignment_loop fuel (.assignment .DIVASSIGN value r) s''
            | (false, _) =>
              match accept .PERCENTEQUAL s with
              | (true, s') => do
                let (r, s'') ← logical_or_expr fuel s'
                assignment_loop fuel (.assignment .MODASSIGN value r) s''
              | (false, s1) => .ok (value, s1)

/-- `assignment_expr` (`parse.c`). -/
def assignment_expr (fuel : Nat) (s : PState) : Except Stop (Node × PState) :=
  match fuel with
  | 0 => .error .fuel
  | fuel + 1 => do
    let (v, s') ← logical_or_expr fuel s
    assignment_loop fuel v s'

/-- The element loop of `comma_expr` (`parse.c`). -/
def comma_loop (fuel : Nat) (acc : List Node) (s : PState) :
    Except Stop (List Node × PState) :=
  match fuel with
  | 0 => .error .fuel
  | fuel + 1 =>
    match accept .COMMA s with
    | (true, s') => do
      let (n, s'') ← assignment_expr fuel s'
      comma_loop fuel (acc ++ [n]) s''
    | (false, s1) => .ok (acc, s1)

/-- `comma_expr` (`parse.c`): a COMMA_EXPR node is only created when a
comma actually follows the first `assignment_expr`. -/
def comma_expr (fuel : Nat) (s : PState) : Except Stop (Node × PState) :=
  match fuel with
  | 0 => .error .fuel
  | fuel + 1 => do
    let (n, s') ← assignment_expr fuel s
    if s'.token = .COMMA then do
      let (elems, s'') ← comma_loop fuel [n] s'
      .ok (.comma_expr elems, s'')
    else
      .ok (n, s')

end

/-! ## Literal conversion (`object.c`) -/

/-- The whitespace characters `strtol` skips. -/
def isCSpace (c : Char) : Bool :=
  c = ' ' || c = '\t' || c = '\n' || c = Char.ofNat 11 || c = Char.ofNat 12 ||
  c = Char.ofNat 13

/-- Decimal value of a digit string. -/
def digitsVal (ds : List Char) : Int :=
  ds.foldl (fun a c => a * 10 + ((c.toNat : Int) - 48)) 0

/-- `str_to_int` (`object.c`): `strtol(s, &e, 10)` — skip leading
whitespace, optional sign, a non-empty digit run (trailing non-digits are
allowed and ignored); no digits at all or out-of-range (`errno = ERANGE`)
raises `ValueError`. -/
def str_to_int (s : String) : Except Stop Int :=
  let cs := s.data.dropWhile isCSpace
  let (neg, cs1) :=
    match cs with
    | '-' :: r => (true, r)
    | '+' :: r => (false, r)
    | _ => (false, cs)
  let ds := cs1.takeWhile Char.isDigit
  if ds.isEmpty then .error (.raised .ValueError)
  else
    let v := if neg then -(digitsVal ds) else digitsVal ds
    if v < -(2 ^ 63) ∨ v > 2 ^ 63 - 1 then .error (.raised .ValueError)
    else .ok v

/-- `str_to_char` (`object.c`): a single character or a single recognised
escape sequence; anything else raises (`ValueError` for an unknown escape,
`SyntaxError` for empty or oversized constants). -/
def str_to_char (s : String) : Except Stop Int :=
  match s.data with
  | '\\' :: e :: rest =>
    let c : Except Stop Int :=
      if e = '0' then .ok 0
      else if e = 'b' then .ok 8
      else if e = 'f' then .ok 12
      else if e = 'n' then .ok 10
      else if e = 'r' then .ok 13
      else if e = 't' then .ok 9
      else if e = 'v' then .ok 11
      else if e = '\\' then .ok 92
      else if e = '\'' then .ok 39
      else if e = '"' then .ok 34
      else .error (.raised .ValueError)
    match c with
    | .error err => .error err
    | .ok v => if rest.isEmpty then .ok v else .error (.raised .SyntaxError)
  | [] => .error (.raised .SyntaxError)         -- empty character constant
  | c :: rest =>
    if rest.isEmpty then .ok (charVal c)
    else .error (.raised .SyntaxError)          -- too many characters

/-! ## Operator dispatch (`object.c`): the binary operators the embedded
programs evaluate.  String concatenation, repetition and other branches not
reached by any verified property stop with `Stop.unmodeled`. -/

/-- `obj_sub` (`object.c`): numeric only. -/
def obj_sub (op1 op2 : Obj) : Except Stop Obj :=
  if isNumber op1 && isNumber op2 then .ok (number_sub op1 op2)
  else .error (.raised .TypeError)

/-- `obj_mult` (`object.c`): the numeric branch; string/list repetition is
outside the embedded fragment. -/
def obj_mult (op1 op2 : Obj) : Except Stop Obj :=
  if isNumber op1 && isNumber op2 then .ok (number_mul op1 op2)
  else if (isNumber op1 || isNumber op2) && (isString op1 || isString op2) then
    .error .unmodeled
  else if (isNumber op1 || isNumber op2) && (isList op1 || isList op2) then
    .error .unmodeled
  else .error (.raised .TypeError)

/-- `obj_mod` (`object.c`): numeric only, dispatching to `number_mod`. -/
def obj_mod (op1 op2 : Obj) : Except Stop Obj :=
  if isNumber op1 && isNumber op2 then number_mod op1 op2
  else .error (.raised .TypeError)

/-- `obj_lss` (`object.c`): numeric only. -/
def obj_lss (op1 op2 : Obj) : Except Stop Obj :=
  if isNumber op1 && isNumber op2 then .ok (number_lss op1 op2)
  else .error (.raised .TypeError)

/-- `obj_leq` (`object.c`): numeric only. -/
def obj_leq (op1 op2 : Obj) : Except Stop Obj :=
  if isNumber op1 && isNumber op2 then .ok (number_leq op1 op2)
  else .error (.raised .TypeError)

/-- `obj_gtr` (`object.c`): numeric only. -/
def obj_gtr (op1 op2 : Obj) : Except Stop Obj :=
  if isNumber op1 && isNumber op2 then .ok (number_gtr op1 op2)
  else .error (.raised .TypeError)

/-- `obj_geq` (`object.c`): numeric only. -/
def obj_geq (op1 op2 : Obj) : Except Stop Obj :=
  if isNumber op1 && isNumber op2 then .ok (number_geq op1 op2)
  else .error (.raised .TypeError)

/-- `obj_eql` / `obj_neq` lifted to the evaluator's error monad (they
never raise). -/
def obj_eql_e (op1 op2 : Obj) : Except Stop Obj := .ok (obj_eql op1 op2)

/-- `obj_neq` (`object.c`): mirrors `obj_eql` with INT 1 for cross-type. -/
def obj_neq (op1 op2 : Obj) : Obj :=
  if isNumber op1 && isNumber op2 then number_neq op1 op2
  else
    match op1, op2 with
    | .str_o s1, .str_o s2 => .int_o (b2i (s1 != s2))
    | .list_o xs, .list_o ys => .int_o (b2i (!list_cmp xs ys))
    | _, _ => .int_o 1

/-- `obj_and` (`object.c` / `number_and`): numbers only. -/
def obj_and (op1 op2 : Obj) : Except Stop Obj :=
  if isNumber op1 && isNumber op2 then do
    let b1 ← obj_as_bool op1
    let b2 ← obj_as_bool op2
    .ok (.int_o (b2i (b1 && b2)))
  else .error (.raised .TypeError)

/-- `obj_or` (`object.c` / `number_or`): numbers only. -/
def obj_or (op1 op2 : Obj) : Except Stop Obj :=
  if isNumber op1 && isNumber op2 then do
    let b1 ← obj_as_bool op1
    let b2 ← obj_as_bool op2
    .ok (.int_o (b2i (b1 || b2)))
  else .error (.raised .TypeError)

/-- `obj_negate` (`object.c` / `number_negate`): logical `!` on numbers. -/
def obj_negate (op1 : Obj) : Except Stop Obj :=
  if isNumber op1 then do
    let b ← obj_as_bool op1
    .ok (.int_o (b2i (!b)))
  else .error (.raised .TypeError)

/-- `obj_invert` (`object.c` / `number_inv`): unary minus computes
`0 - op1` at the operand's own type. -/
def obj_invert (op1 : Obj) : Except Stop Obj :=
  match op1 with
  | .char_o _ => obj_sub (.char_o 0) op1
  | .int_o _ => obj_sub (.int_o 0) op1
  | .float_o _ => obj_sub (.float_o 0) op1
  | _ => .error (.raised .TypeError)

/-- The `in` operator as pushed by `visit_binary`: the C code pushes
`obj_in`'s raw return value, which is NULL for an empty sequence;
consuming that NULL later dereferences it (undefined behaviour), which the
model reports as `Stop.unmodeled`. -/
def obj_in_push (op1 op2 : Obj) : Except Stop Obj := do
  match (← obj_in op1 op2) with
  | some r => .ok r
  | none => .error .unmodeled

/-- `obj_slice` (`object.c`): dispatch on the sequence type. -/
def obj_slice (sequence : Obj) (start0 end0 : Int) : Except Stop Obj :=
  match sequence with
  | .str_o s =>
    match str_slice s start0 end0 with
    | some r => .ok r
    | none => .error .unmodeled     -- out-of-buffer read in the C code
  | .list_o xs => list_slice xs start0 end0
  | _ => .error (.raised .TypeError)

/-! ## Identifiers and scope (`identifier.c`) -/

/-- What an identifier is bound to: variables hold an object, functions
hold their FUNCTION_DECLARATION node. -/
inductive Binding where
  | var_b (o : Obj)
  | func_b (n : Node)
deriving Repr

/-- One scope frame: its identifier list in insertion order. -/
abbrev Frame := List (String × Binding)

/-- `searchIdentifierInScope` (`identifier.c`). -/
def searchInScope (f : Frame) (name : String) : Option Binding :=
  match f.find? (fun p => p.1 == name) with
  | some p => some p.2
  | none => none

/-- `identifier.search` (`identifier.c`): first the local (innermost)
frame, then the global (outermost) frame; intermediate frames are not
consulted. -/
def search (frames : List Frame) (name : String) : Option Binding :=
  match searchInScope (frames.headD []) name with
  | some b => some b
  | none => searchInScope (frames.getLastD []) name

/-- `identifier.add` followed by `identifier.bind` on the fresh identifier
(the usual C calling pattern): fails (`add` returns NULL) when the name
already exists in the local frame. -/
def addBind (frames : List Frame) (name : String) (b : Binding) :
    Option (List Frame) :=
  let local_f := frames.headD []
  match searchInScope local_f name with
  | some _ => none
  | none => some ((local_f ++ [(name, b)]) :: frames.tail)

/-! ## The evaluator (`visit.c`) -/

/-- The evaluator state: the scope-frame stack (head = innermost local
frame, last = global frame), the operand stack (head = top; `stack.c`'s
`push`/`pop` implement exactly this LIFO on object pointers), the three
control-flow flags, and the text written to standard output. -/
structure Env where
  frames : List Frame
  stack : List Obj
  do_break : Bool
  do_continue : Bool
  do_return : Bool
  output : String
deriving Repr

/-- `push` onto the operand stack. -/
def envPush (env : Env) (o : Obj) : Env := { env with stack := o :: env.stack }

/-- `pop` from the operand stack; the embedded visit functions only pop
values they have just pushed, so an empty stack here would mean the C code
popped NULL and dereferenced it. -/
def envPop (env : Env) : Except Stop (Obj × Env) :=
  match env.stack with
  | [] => .error .unmodeled
  | o :: rest => .ok (o, { env with stack := rest })

mutual

/-- `obj_print` (`object.c`): the text a `print` statement produces for an
object.  CHAR prints the byte (`%c`), INT uses `%ld`, STR prints its bytes,
LIST prints `[` items `]` separated by commas, NONE prints `none`; the
`%.15G` float format is outside the embedded fragment. -/
def obj_print : Obj → Except Stop String
  | .char_o c => .ok (String.mk [Char.ofNat ((c % 256).toNat % 256)])
  | .int_o i => .ok (toString i)
  | .float_o _ => .error .unmodeled
  | .str_o s => .ok (String.mk s)
  | .none_o => .ok "none"
  | .list_o xs => do
    let body ← obj_print_items xs
    .ok ("[" ++ body ++ "]")

/-- The element loop of `list_print` (`list.c`). -/
def obj_print_items : List Obj → Except Stop String
  | [] => .ok ""
  | [x] => obj_print x
  | x :: rest => do
    let s1 ← obj_print x
    let s2 ← obj_print_items rest
    .ok (s1 ++ "," ++ s2)

end

/-- The parameter-binding loop of `visit_function_call`: add each formal
name as a VARIABLE in the (fresh) local frame and bind it to a deep copy of
the actual argument. -/
def bindParams (params : List String) (args : List Obj) (frames : List Frame) :
    Except Stop (List Frame) :=
  match params, args with
  | [], [] => .ok frames
  | p :: ps, a :: as_v =>
    (match addBind frames p (.var_b (obj_copy a)) with
     | some frames' => bindParams ps as_v frames'
     | none => .error .unmodeled)   -- duplicate formal name: bind(NULL, ...)
  | _, _ => .error .unmodeled

mutual

/-- `visit` (`visit.c`): execute one node against the evaluator state.
Each visit function is transcribed from its C counterpart; node kinds whose
visit functions are not exercised by any verified property stop with
`Stop.unmodeled`. -/
def visit (fuel : Nat) (n : Node) (env : Env) : Except Stop Env :=
  match fuel with
  | 0 => .error .fuel
  | fuel + 1 =>
    match n with
    | .block stmts => visitStmts fuel stmts env
    | .literal t lex =>
      match t with
      | .VT_CHAR => do
        let c ← str_to_char lex
        .ok (envPush env (.char_o c))
      | .VT_INT => do
        let i ← str_to_int lex
        .ok (envPush env (.int_o i))
      | .VT_FLOAT => .error .unmodeled
      | .VT_STR => .ok (envPush env (.str_o lex.data))
      | .VT_LIST => .error .unmodeled
    | .reference name =>
      -- the checker has guaranteed the name designates a variable
      (match search env.frames name with
       | some (.var_b o) => .ok (envPush env o)
       | _ => .error .unmodeled)
    | .unary op operand => do
      let env1 ← visit fuel operand env
      match op with
      | .UNOT => do
        let (o, env2) ← envPop env1
        let r ← obj_negate o
        .ok (envPush env2 r)
      | .UMINUS => do
        let (o, env2) ← envPop env1
        let r ← obj_invert o
        .ok (envPush env2 r)
      | .UPLUS => .ok env1
    | .binary op l r => do
      let env1 ← visit fuel l env
      let (left, env2) ← envPop env1
      let env3 ← visit fuel r env2
      let (right, env4) ← envPop env3
      let result ←
        match op with
        | .ADD =>
          if isNumber left && isNumber right then
            .error .unmodeled    -- number_add: not exercised
          else .error .unmodeled -- string/list concatenation: not exercised
        | .SUB => obj_sub left right
        | .MUL => obj_mult left right
        | .DIV => .error .unmodeled   -- number_div: not exercised
        | .MOD => obj_mod left right
        | .LSS => obj_lss left right
        | .LEQ => obj_leq left right
        | .GTR => obj_gtr left right
        | .GEQ => obj_geq left right
        | .EQ => obj_eql_e left right
        | .NEQ => .ok (obj_neq left right)
        | .OP_IN => obj_in_push left right
        | .LOGICAL_AND => obj_and left right
        | .LOGICAL_OR => obj_or left right
      .ok (envPush env4 result)
    | .comma_expr exprs => visitComma fuel exprs env
    | .index seq sub => do
      let env1 ← visit fuel seq env
      let (sequence, env2) ← envPop env1
      let env3 ← visit fuel sub env2
      let (subscript, env4) ← envPop env3
      let r ← obj_item sequence (obj_as_int subscript)
      .ok (envPush env4 r)
    | .slice seq st en => do
      let env1 ← visit fuel seq env
      let (sequence, env2) ← envPop env1
      let env3 ← visit fuel st env2
      let (start, env4) ← envPop env3
      let env5 ← visit fuel en env4
      let (stop, env6) ← envPop env5
      let r ← obj_slice sequence (obj_as_int start) (obj_as_int stop)
      .ok (envPush env6 r)
    | .assignment _ _ _ =>
      -- obj_assign mutates the target object in place; in-place mutation
      -- with aliasing is outside the immutable value model
      .error .unmodeled
    | .arglist args => do
      let (objs, env1) ← visitArgs fuel args env []
      .ok (envPush env1 (.list_o (objs.map obj_copy)))
    | .method_suffix _ _ _ => .error .unmodeled   -- obj_method: not exercised
    | .function_call name builtin args => do
      let (argv, env1) ← visitArgs fuel args env []
      if builtin then .error .unmodeled           -- visit_builtin: not exercised
      else
        match search env1.frames name with
        | some (.func_b fdecl) =>
          match fdecl with
          | .function_declaration _ params body =>
            if params.length ≠ argv.length then .error .unmodeled
            else do
              -- scope.append_level(); bind each formal to a copy of its
              -- actual argument
              let env2 := { env1 with frames := [] :: env1.frames }
              let frames3 ← bindParams params argv env2.frames
              let env3 := { env2 with frames := frames3 }
              let env4 ← visit fuel body env3
              -- scope.remove_level()
              let env5 := { env4 with frames := env4.frames.tail }
              let env6 :=
                if env5.do_return = false then envPush env5 (.int_o 0) else env5
              .ok { env6 with do_return := false }
          | _ => .error .unmodeled
        | _ => .error .unmodeled                  -- id->node dereferenced blindly
    | .if_stmnt cond conseq alt => do
      let env1 ← visit fuel cond env
      let (o, env2) ← envPop env1
      let b ← obj_as_bool o
      if b then visit fuel conseq env2
      else
        match alt with
        | some a => visit fuel a env2
        | none => .ok env2
    | .return_stmnt value => do
      let env1 ←
        match value with
        | none => pure (envPush env (.int_o 0))
        | some e => visit fuel e env
      .ok { env1 with do_return := true }
    | .print_stmnt raw exprs => do
      let env1 ← visitPrint fuel exprs true raw env
      if raw = false then .ok { env1 with output := env1.output ++ "\n" }
      else .ok env1
    | .expression_stmnt e => do
      let env1 ← visit fuel e env
      let (_, env2) ← envPop env1    -- expression statements discard the result
      .ok env2
    | .function_declaration name _ _ =>
      -- visit_function_declaration: identifier.add + identifier.bind(n);
      -- add returns NULL on redeclaration and the C code dereferences it
      (match addBind env.frames name (.func_b n) with
       | some frames' => .ok { env with frames := frames' }
       | none => .error .unmodeled)

/-- The statement loop of `visit_block` (`visit.c` line 147): continue
while statements remain AND neither `do_break` nor `do_continue` is set —
`do_return` is NOT part of the loop condition. -/
def visitStmts (fuel : Nat) (stmts : List Node) (env : Env) : Except Stop Env :=
  match fuel with
  | 0 => .error .fuel
  | fuel + 1 =>
    match stmts with
    | [] => .ok env
    | s :: rest =>
      if env.do_break || env.do_continue then .ok env
      else do
        let env1 ← visit fuel s env
        visitStmts fuel rest env1

/-- The argument loop of `visit_function_call` (and of `visit_arglist`):
visit each expression and pop its value into the argument array. -/
def visitArgs (fuel : Nat) (args : List Node) (env : Env) (acc : List Obj) :
    Except Stop (List Obj × Env) :=
  match fuel with
  | 0 => .error .fuel
  | fuel + 1 =>
    match args with
    | [] => .ok (acc, env)
    | a :: rest => do
      let env1 ← visit fuel a env
      let (o, env2) ← envPop env1
      visitArgs fuel rest env2 (acc ++ [o])

/-- The expression loop of `visit_comma_expr`: pop and discard every
result except the last. -/
def visitComma (fuel : Nat) (exprs : List Node) (env : Env) : Except Stop Env :=
  match fuel with
  | 0 => .error .fuel
  | fuel + 1 =>
    match exprs with
    | [] => .ok env
    | [e] => visit fuel e env
    | e :: rest => do
      let env1 ← visit fuel e env
      let (_, env2) ← envPop env1
      visitComma fuel rest env2

/-- The expression loop of `visit_print_stmnt`: a single space separates
values when not raw. -/
def visitPrint (fuel : Nat) (exprs : List Node) (first raw : Bool) (env : Env) :
    Except Stop Env :=
  match fuel with
  | 0 => .error .fuel
  | fuel + 1 =>
    match exprs with
    | [] => .ok env
    | e :: rest => do
      let env0 :=
        if first = false ∧ raw = false then
          { env with output := env.output ++ " " }
        else env
      let env1 ← visit fuel e env0
      let (o, env2) ← envPop env1
      let txt ← obj_print o
      visitPrint fuel rest false raw { env2 with output := env2.output ++ txt }

end

/-! ## Spec-side helper predicates and concrete test fixtures -/

/-- Does an object carry the FLOAT_T tag? -/
def isFloat : Obj → Bool
  | .float_o _ => true
  | _ => false

/-- Specification mirror of `read_string`'s character translation: the
escape-processed text of the whole remaining input (used to state what the
lexeme contains when no closing quote ever arrives). -/
def escProcess : List Char → List Char
  | [] => []
  | '"' :: _ => []
  | '\\' :: c :: r =>
    (match stringEscape c with
     | some e => e :: escProcess r
     | none => '\\' :: escProcess (c :: r))
  | ['\\'] => ['\\']
  | ch :: rest => ch :: escProcess rest

/-- Specification predicate: the input (after the opening quote) contains
no closing double quote, so `read_string` runs to end of file. -/
def unterminated : List Char → Bool
  | [] => true
  | '"' :: _ => false
  | '\\' :: c :: r =>
    (match stringEscape c with
     | some _ => unterminated r
     | none => unterminated (c :: r))
  | ['\\'] => true
  | _ :: rest => unterminated rest

/-- The BINARY discriminant `relational_expr` pairs with each relational
token. -/
def relBinOp : Tok → BinOp
  | .LESS => .LSS
  | .LESSEQUAL => .LEQ
  | .GREATER => .GTR
  | .GREATEREQUAL => .GEQ
  | _ => .LSS

/-- The evaluator state `main` starts from: one (global) scope frame, an
empty operand stack, cleared flags, no output. -/
def initialEnv : Env :=
  { frames := [[]], stack := [], do_break := false, do_continue := false,
    do_return := false, output := "" }

/-- The first statement of `fact`'s body: `if n <= 1` / `return 1`. -/
def factStmt1 : Node :=
  .if_stmnt (.binary .LEQ (.reference "n") (.literal .VT_INT "1"))
    (.block [.return_stmnt (some (.literal .VT_INT "1"))]) none

/-- The second statement of `fact`'s body: `return n * fact(n - 1)`. -/
def factStmt2 : Node :=
  .return_stmnt (some (.binary .MUL (.reference "n")
    (.function_call "fact" false
      [.binary .SUB (.reference "n") (.literal .VT_INT "1")])))

/-- The body of `fact` from the factorial scenario:
`if n <= 1` / `return 1` / `return n * fact(n - 1)`. -/
def factBody : Node := .block [factStmt1, factStmt2]

/-- The scope frame a call of `fact` builds for its parameter. -/
def factFrame (v : Int) : Frame := [("n", .var_b (.int_o v))]

/-- The evaluator state inside a call of `fact` with `n` bound to `v`:
the parameter frame on top of the caller's frames, loop flags cleared. -/
def factEnv (v : Int) (rest : List Frame) (stk : List Obj) (dr : Bool)
    (out : String) : Env :=
  { frames := factFrame v :: rest, stack := stk,
    do_break := false, do_continue := false, do_return := dr, output := out }

/-- `def fact(n) ...` as parsed. -/
def factDecl : Node := .function_declaration "fact" ["n"] factBody

/-- The whole factorial program: the declaration followed by
`print fact(6)`. -/
def factProgram : Node :=
  .block [factDecl,
          .print_stmnt false [.function_call "fact" false [.literal .VT_INT "6"]]]

/-- A function body whose top-level block holds two return statements:
`return 1` / `return 2`. -/
def twoReturnsBody : Node :=
  .block [.return_stmnt (some (.literal .VT_INT "1")),
          .return_stmnt (some (.literal .VT_INT "2"))]

/-- `def f()` with the two-return body. -/
def twoReturnsDecl : Node := .function_declaration "f" [] twoReturnsBody

/-- An evaluator state whose global frame has `f` bound to the two-return
function. -/
def twoReturnsEnv : Env :=
  { frames := [[("f", .func_b twoReturnsDecl)]], stack := [],
    do_break := false, do_continue := false, do_return := false, output := "" }

/-- The indentation-error scenario from the specification: an `if` block
whose body line is indented by 4 and whose next line is indented by 2,
a column lying strictly between the stacked levels 0 and 4. -/
def dentSource : List Char := "if 1\n    pass\n  pass\n".data

/-- The scanner state at the beginning of the third line of `dentSource`
(byte 14), after the block body pushed column 4: stack holds 4 over 0. -/
def dentState0 : ScanState :=
  { module := { code := dentSource, pos := 14, bol := 14, lineno := 3 },
    at_bol := true, stack := [4, 0], tabsize := 4 }

/-- The state `indent_phase` leaves after emitting DEDENT for the third
line: rewound to the beginning of the line, one level popped. -/
def dentState1 : ScanState :=
  { module := { code := dentSource, pos := 14, bol := 14, lineno := 4 },
    at_bol := true, stack := [0], tabsize := 4 }

/-- The state after the subsequent INDENT: column 2 pushed. -/
def dentState2 : ScanState :=
  { module := { code := dentSource, pos := 16, bol := 14, lineno := 5 },
    at_bol := false, stack := [2, 0], tabsize := 4 }

/-! # Theorems -/

/-- C10: calling `pop` on an empty operand stack returns NULL and leaves
the stack unchanged (`top` remains -1), never decrementing `top` below -1
and never aborting; `peek` on an empty stack likewise returns NULL. -/
theorem pop_peek_empty_stack (s : Stack) (h : is_empty s = true) :
    pop s = (none, s) ∧ peek s = none := by
  constructor <;> simp [pop, peek, h]

/-- Witness for `pop_peek_empty_stack` at a freshly allocated stack. -/
theorem pop_peek_empty_stack_witness :
    pop (stack_alloc 16) = (none, stack_alloc 16) ∧ peek (stack_alloc 16) = none :=
  pop_peek_empty_stack (stack_alloc 16) rfl

/-- C8: the INT branch of the numeric comparisons tests
`TYPE(op1) == INT_T || TYPE(op1) == INT_T`, ignoring `op2`; comparing
CHAR 1 with INT 257 therefore lands in the CHAR branch, where 257 is
truncated to the byte 1, so `number_eql` answers INT 1 (equal) and
`number_lss` answers INT 0 — although the full integer values 1 and 257
differ, so the intended machine-word comparison yields the opposite. -/
theorem number_cmp_char_int_truncated :
    number_eql (.char_o 1) (.int_o 257) = .int_o 1 ∧
    number_lss (.char_o 1) (.int_o 257) = .int_o 0 ∧
    obj_as_int (.char_o 1) ≠ obj_as_int (.int_o 257) := by
  refine ⟨rfl, rfl, ?_⟩
  simp [obj_as_int]

/-- C6 counterexample: `a % b` with a FLOAT operand and a ZERO divisor
raises `DivisionByZeroError` (exit 9), not `ModNotAllowedError`, because
the zero-divisor test precedes the coercion dispatch in `number_mod`. -/
theorem number_mod_zero_divisor_precedes :
    number_mod (.float_o 1) (.int_o 0) = .error (.raised .DivisionByZeroError) ∧
    number_mod (.int_o 1) (.float_o 0) = .error (.raised .DivisionByZeroError) ∧
    Err.DivisionByZeroError ≠ Err.ModNotAllowedError := by
  refine ⟨rfl, rfl, by simp⟩

/-- C6 amended: `a % b` with a FLOAT operand raises `ModNotAllowedError`
(exit 8) regardless of operand order, for every NONZERO divisor; a zero
divisor instead raises `DivisionByZeroError` first. -/
theorem number_mod_float_not_allowed (op1 op2 : Obj)
    (h1 : isNumber op1 = true) (h2 : isNumber op2 = true)
    (hf : isFloat op1 = true ∨ isFloat op2 = true)
    (hz : obj_as_float op2 ≠ 0) :
    number_mod op1 op2 = .error (.raised .ModNotAllowedError) := by
  unfold number_mod
  rw [if_neg hz]
  cases op1 <;> cases op2 <;> simp_all [isNumber, isFloat, coerce]

/-- Witness for `number_mod_float_not_allowed`: `1.0 % 3`. -/
theorem number_mod_float_not_allowed_witness :
    number_mod (.float_o 1) (.int_o 3) = .error (.raised .ModNotAllowedError) :=
  number_mod_float_not_allowed (.float_o 1) (.int_o 3) rfl rfl (Or.inl rfl)
    (by norm_num [obj_as_float])

/-- C3: `x in s` on an EMPTY sequence `s` returns the loop's initial
`result`, which is the NULL pointer (`Option.none`) — not an INT 0 object
as the function's own documentation promises; the evaluator pushes that
NULL onto the operand stack and the next consumer dereferences it. -/
theorem obj_in_empty_sequence_null :
    (∀ x : Obj, obj_in x (.list_o []) = .ok none) ∧
    (∀ x : Obj, obj_in x (.str_o []) = .ok none) :=
  ⟨fun _ => rfl, fun _ => rfl⟩

/-- C7 counterexample: the string slice `"abc"[2:1]` — normalised start 2
is greater than normalised end 1, both in range — returns the non-empty
suffix `"c"`, because `strndup` receives the byte count `1 - 2 = -1`
converted to an unsigned `size_t` and therefore copies to the end of the
string. -/
theorem str_slice_reversed_bounds_not_empty :
    str_slice ['a', 'b', 'c'] 2 1 = some (.str_o ['c']) ∧
    (['c'] : List Char) ≠ [] := by
  refine ⟨rfl, by simp⟩

/-- C2: visiting the call `f()` of the two-return function pushes TWO
objects onto the operand stack (INT 1 from the first `return`, then INT 2
from the second, which `visit_block` still executes), and the enclosing
expression statement pops only one of them, leaving the stack one deeper
than before the statement. -/
theorem function_call_two_returns_two_pushes :
    visit 20 (.function_call "f" false []) twoReturnsEnv =
      .ok { frames := [[("f", .func_b twoReturnsDecl)]],
            stack := [.int_o 2, .int_o 1],
            do_break := false, do_continue := false, do_return := false,
            output := "" } ∧
    visit 20 (.expression_stmnt (.function_call "f" false [])) twoReturnsEnv =
      .ok { frames := [[("f", .func_b twoReturnsDecl)]],
            stack := [.int_o 1],
            do_break := false, do_continue := false, do_return := false,
            output := "" } :=
  ⟨rfl, rfl⟩

/-- C4 counterexample: the parser turns `4 < 3 < 2` into the RIGHT-nested
tree `4 < (3 < 2)` — `relational_expr` parses its right operand with a
recursive call to itself — and evaluating that tree yields INT 0, while
the left-nested tree `(4 < 3) < 2` the claim prescribes evaluates to
INT 1. -/
theorem relational_chain_right_nested :
    relational_expr 32
        (mkPState [.INT "4", .LESS, .INT "3", .LESS, .INT "2", .NEWLINE]) =
      .ok (.binary .LSS (.literal .VT_INT "4")
             (.binary .LSS (.literal .VT_INT "3") (.literal .VT_INT "2")),
           { token := .NEWLINE, rest := [] }) ∧
    visit 20 (.binary .LSS (.literal .VT_INT "4")
               (.binary .LSS (.literal .VT_INT "3") (.literal .VT_INT "2")))
        initialEnv =
      .ok { frames := [[]], stack := [.int_o 0], do_break := false,
            do_continue := false, do_return := false, output := "" } ∧
    visit 20 (.binary .LSS
               (.binary .LSS (.literal .VT_INT "4") (.literal .VT_INT "3"))
               (.literal .VT_INT "2"))
        initialEnv =
      .ok { frames := [[]], stack := [.int_o 1], do_break := false,
            do_continue := false, do_return := false, output := "" } :=
  ⟨rfl, rfl, rfl⟩

/-- C4 amended: the relational operators chain RIGHT-associatively — for
every expression `a OP1 b OP2 c` with relational OP1, OP2 the parser builds
`a OP1 (b OP2 c)`. -/
theorem relational_chain_builds_right_tree (la lb lc : String) (op1 op2 : Tok)
    (h1 : op1 = .LESS ∨ op1 = .LESSEQUAL ∨ op1 = .GREATER ∨ op1 = .GREATEREQUAL)
    (h2 : op2 = .LESS ∨ op2 = .LESSEQUAL ∨ op2 = .GREATER ∨ op2 = .GREATEREQUAL) :
    relational_expr 32 (mkPState [.INT la, op1, .INT lb, op2, .INT lc, .NEWLINE]) =
      .ok (.binary (relBinOp op1) (.literal .VT_INT la)
             (.binary (relBinOp op2) (.literal .VT_INT lb) (.literal .VT_INT lc)),
           { token := .NEWLINE, rest := [] }) := by
  rcases h1 with rfl | rfl | rfl | rfl <;> rcases h2 with rfl | rfl | rfl | rfl <;> rfl

/-- Witness for `relational_chain_builds_right_tree` at `4 <= 3 > 2`. -/
theorem relational_chain_builds_right_tree_witness :
    relational_expr 32
        (mkPState [.INT "4", .LESSEQUAL, .INT "3", .GREATER, .INT "2", .NEWLINE]) =
      .ok (.binary .LEQ (.literal .VT_INT "4")
             (.binary .GTR (.literal .VT_INT "3") (.literal .VT_INT "2")),
           { token := .NEWLINE, rest := [] }) :=
  relational_chain_builds_right_tree "4" "3" "2" .LESSEQUAL .GREATER
    (Or.inr (Or.inl rfl)) (Or.inr (Or.inr (Or.inl rfl)))

/-- Helper: the whitespace-counting loop never raises a syntax error (its
only failure mode is fuel exhaustion). -/
theorem countIndent_not_raised (fuel : Nat) :
    ∀ tabsize m col e, countIndent tabsize m col fuel ≠ .error (.raised e) := by
  induction fuel with
  | zero => intro tabsize m col e; simp [countIndent]
  | succ f ih =>
    intro tabsize m col e
    unfold countIndent
    split
    · exact ih _ _ _ e
    · exact ih _ _ _ e
    · simp

/-- Helper: the comment-skipping loop never raises a syntax error. -/
theorem skipComment_not_raised (fuel : Nat) :
    ∀ m e, skipComment m fuel ≠ .error (.raised e) := by
  induction fuel with
  | zero => intro m e; simp [skipComment]
  | succ f ih =>
    intro m e
    unfold skipComment
    split
    · simp
    · simp
    · exact ih _ e

/-- Helper: binding a failed `Except` computation fails the same way. -/
theorem except_bind_error {ε α β : Type} (e : ε) (f : α → Except ε β) :
    (Except.error e >>= f) = Except.error e := rfl

/-- Helper: binding a successful `Except` computation applies the
continuation. -/
theorem except_bind_ok {ε α β : Type} (a : α) (f : α → Except ε β) :
    ((Except.ok a : Except ε α) >>= f) = f a := rfl

/-- Helper: `indent_compare` can raise only the MAXINDENT overflow error
when the bottom of the indentation stack is the start-up column 0 — the
"inconsistent use of TAB and space" branch needs the popped stack to be
empty, i.e. a single live entry, which the invariant forces to be 0, and a
(non-negative) column strictly below 0. -/
theorem indent_compare_not_inconsistent (st : ScanState) (col : Nat)
    (h : st.stack.getLast? = some 0) :
    indent_compare st col ≠ .error (.raised .inconsistentDent) := by
  unfold indent_compare
  rcases hs : st.stack with _ | ⟨x, rest⟩
  · rw [hs] at h
    simp at h
  · rcases rest with _ | ⟨y, rest2⟩
    · rw [hs] at h
      simp at h
      subst h
      repeat' split
      all_goals simp_all
      all_goals omega
    · repeat' split
      all_goals simp_all

/-- Helper: the indentation phase never raises the "inconsistent use of
TAB and space in indentation" error from any state whose indentation stack
still ends in the start-up column 0 — `indentation[0] = 0` is never
overwritten and a counted column is never negative, so the guard
`--indentlevel < 0` can never fire. -/
theorem indent_phase_not_inconsistent (fuel : Nat) :
    ∀ st : ScanState, st.stack.getLast? = some 0 →
      indent_phase st fuel ≠ .error (.raised .inconsistentDent) := by
  induction fuel with
  | zero => intro st h; simp [indent_phase]
  | succ f ih =>
    intro st h
    unfold indent_phase
    by_cases hb : st.at_bol = false
    · simp [hb]
    · rw [if_neg hb]
      cases hc : countIndent st.tabsize st.module 0 f with
      | error e =>
        cases e with
        | raised e2 => exact absurd hc (countIndent_not_raised f _ _ _ e2)
        | fuel =>
          simp only [hc, except_bind_error]
          simp
      | ok v =>
        obtain ⟨col, ch0, m0⟩ := v
        simp only [hc, except_bind_ok]
        by_cases hsh : ch0 = some '#'
        · rw [if_pos hsh]
          cases hsk : skipComment m0 f with
          | error e =>
            cases e with
            | raised e2 => exact absurd hsk (skipComment_not_raised f _ e2)
            | fuel =>
              simp only [hsk, except_bind_error]
              simp
          | ok w =>
            obtain ⟨ch1, m1⟩ := w
            simp only [hsk, except_bind_ok]
            repeat' split
            all_goals first
              | exact ih _ h
              | exact indent_compare_not_inconsistent _ _ h
              | simp
        · rw [if_neg hsh]
          simp only [pure, Except.pure, except_bind_ok]
          repeat' split
          all_goals first
            | exact ih _ h
            | exact indent_compare_not_inconsistent _ _ h
            | simp

/-- C5: the scanner never fails with `SyntaxError` "inconsistent use of
TAB and space in indentation" — the guarding branch is unreachable because
the bottom of the indentation stack is the start-up column 0 and counted
columns are non-negative.  On the specification's own scenario (a line
indented to column 2 between the stacked levels 0 and 4) the scanner
instead emits DEDENT (rewinding to the beginning of the line) and then
INDENT, pushing column 2 as a new level. -/
theorem indent_between_levels_no_error :
    (∀ (fuel : Nat) (st : ScanState), st.stack.getLast? = some 0 →
       indent_phase st fuel ≠ .error (.raised .inconsistentDent)) ∧
    indent_phase dentState0 50 = .ok (some .DEDENT, dentState1) ∧
    indent_phase dentState1 50 = .ok (some .INDENT, dentState2) :=
  ⟨fun fuel => indent_phase_not_inconsistent fuel, rfl, rfl⟩

/-- Witness for `indent_between_levels_no_error` at the scenario state. -/
theorem indent_between_levels_no_error_witness :
    indent_phase dentState0 50 ≠ .error (.raised .inconsistentDent) :=
  indent_between_levels_no_error.1 50 dentState0 rfl

/-- Helper: the copy loop of `list_slice` collects exactly the window
`[i, e)` of the list when `0 ≤ i`, `e ≤ len` and the fuel covers the
remaining iterations — in particular no iteration indexes out of range, so
no `IndexError` is ever raised. -/
theorem list_slice_loop_spec (fuel : Nat) :
    ∀ (xs : List Obj) (i e : Int), 0 ≤ i → e ≤ xs.length →
      (e - i).toNat < fuel →
      list_slice_loop xs i e fuel =
        .ok ((xs.drop i.toNat).take (e - i).toNat) := by
  induction fuel with
  | zero => intro xs i e hi he hf; omega
  | succ f ih =>
    intro xs i e hi he hf
    unfold list_slice_loop
    by_cases hlt : i < e
    · rw [if_pos hlt]
      have hidx : i.toNat < xs.length := by omega
      have hni : ¬i < 0 := by omega
      have hitem : list_item xs i = .ok (xs.getD i.toNat .none_o) := by
        simp only [list_item, if_neg hni]
        rw [if_neg (by omega)]
      rw [hitem, except_bind_ok]
      rw [ih xs (i + 1) e (by omega) he (by omega), except_bind_ok]
      have hdrop : xs.drop i.toNat = xs.getD i.toNat .none_o :: xs.drop (i.toNat + 1) := by
        rw [List.getD_eq_getElem xs _ hidx]
        exact List.drop_eq_getElem_cons hidx
      have htn : (i + 1).toNat = i.toNat + 1 := by omega
      have hk : (e - i).toNat = (e - (i + 1)).toNat + 1 := by omega
      rw [htn, hdrop, hk, List.take_succ_cons]
      rfl
    · rw [if_neg hlt]
      have hz : (e - i).toNat = 0 := by omega
      rw [hz]
      rfl

/-- C7 amended: slicing normalises negative bounds by adding `len` and
never raises `IndexError`, and `s[n:m]` with normalised `n ≥ m` returns an
empty sequence for LIST — but not always for STR.  Precisely:
(1) a LIST slice returns exactly the window `[max(n', 0), min(m', len))`
of the list (`n'`, `m'` the bounds after adding `len` to negative values),
hence the empty list whenever the clamped start reaches the clamped end;
(2) a STR slice whose clamped bounds are equal returns the empty string;
(3) a STR slice whose clamped start EXCEEDS its clamped end (start within
`[0, len]`, end non-negative, `len < 2^63`) returns the whole suffix of
the string from the start bound — `strndup` receives the negative byte
count `end - start` as an unsigned `size_t`, which wraps to a huge value. -/
theorem slice_clamps_and_wraps :
    (∀ (xs : List Obj) (n m : Int),
       list_slice xs n m =
         .ok (.list_o ((xs.drop (max (if n < 0 then n + xs.length else n) 0).toNat).take
           ((min (if m < 0 then m + xs.length else m) xs.length)
             - max (if n < 0 then n + xs.length else n) 0).toNat))) ∧
    (∀ (s : List Char) (n m : Int),
       max (if n < 0 then n + s.length else n) 0 =
         min (if m < 0 then m + s.length else m) s.length →
       str_slice s n m = some (.str_o [])) ∧
    (∀ (s : List Char) (n m : Int),
       max (if n < 0 then n + s.length else n) 0 ≤ s.length →
       0 ≤ min (if m < 0 then m + s.length else m) s.length →
       min (if m < 0 then m + s.length else m) s.length <
         max (if n < 0 then n + s.length else n) 0 →
       (s.length : Int) < 2 ^ 63 →
       str_slice s n m =
         some (.str_o (s.drop (max (if n < 0 then n + s.length else n) 0).toNat))) := by
  refine ⟨?_, ?_, ?_⟩
  · intro xs n m
    simp only [list_slice]
    have hs2 : (if (if n < 0 then n + (xs.length : Int) else n) < 0 then 0
        else if n < 0 then n + (xs.length : Int) else n) =
        max (if n < 0 then n + (xs.length : Int) else n) 0 := by
      split <;> omega
    have he2 : (if (if m < 0 then m + (xs.length : Int) else m) ≥ (xs.length : Int)
        then (xs.length : Int) else if m < 0 then m + (xs.length : Int) else m) =
        min (if m < 0 then m + (xs.length : Int) else m) (xs.length : Int) := by
      split <;> omega
    rw [hs2, he2,
        list_slice_loop_spec (xs.length + 1) xs _ _ (by omega) (by omega) (by omega),
        except_bind_ok]
    rfl
  · intro s n m h
    simp only [str_slice]
    have hs2 : (if (if n < 0 then n + (s.length : Int) else n) < 0 then 0
        else if n < 0 then n + (s.length : Int) else n) =
        max (if n < 0 then n + (s.length : Int) else n) 0 := by
      split <;> omega
    have he2 : (if (if m < 0 then m + (s.length : Int) else m) ≥ (s.length : Int)
        then (s.length : Int) else if m < 0 then m + (s.length : Int) else m) =
        min (if m < 0 then m + (s.length : Int) else m) (s.length : Int) := by
      split <;> omega
    rw [hs2, he2]
    set S := max (if n < 0 then n + (s.length : Int) else n) 0 with hS
    set E := min (if m < 0 then m + (s.length : Int) else m) (s.length : Int) with hE
    have hEl : E ≤ (s.length : Int) := by rw [hE]; exact min_le_right _ _
    rw [if_neg (by omega)]
    rw [← h, sub_self]
    have hu0 : usize64 0 = 0 := by simp [usize64]
    rw [hu0]
    simp [strndup]
  · intro s n m h1 h2 h3 h4
    simp only [str_slice]
    have hs2 : (if (if n < 0 then n + (s.length : Int) else n) < 0 then 0
        else if n < 0 then n + (s.length : Int) else n) =
        max (if n < 0 then n + (s.length : Int) else n) 0 := by
      split <;> omega
    have he2 : (if (if m < 0 then m + (s.length : Int) else m) ≥ (s.length : Int)
        then (s.length : Int) else if m < 0 then m + (s.length : Int) else m) =
        min (if m < 0 then m + (s.length : Int) else m) (s.length : Int) := by
      split <;> omega
    rw [hs2, he2]
    set S := max (if n < 0 then n + (s.length : Int) else n) 0 with hS
    set E := min (if m < 0 then m + (s.length : Int) else m) (s.length : Int) with hE
    have hS0 : 0 ≤ S := by rw [hS]; exact le_max_right _ _
    rw [if_neg (by omega)]
    have hud : usize64 (E - S) = (E - S + 2 ^ 64).toNat := by
      unfold usize64
      have h5 : (E - S) % 2 ^ 64 = E - S + 2 ^ 64 := by omega
      rw [h5]
    rw [hud]
    have hlen : min (E - S + 2 ^ 64).toNat (s.drop S.toNat).length =
        (s.drop S.toNat).length := by
      rw [List.length_drop]
      omega
    unfold strndup
    rw [hlen, List.take_length]

/-- Witness for `slice_clamps_and_wraps`: the list window formula at
`[10,20,30][0:2]`, the empty string at `"abc"[1:1]`, and the wrapped
suffix at `"abc"[2:1]`. -/
theorem slice_clamps_and_wraps_witness :
    list_slice [.int_o 10, .int_o 20, .int_o 30] 0 2 =
      .ok (.list_o ((([.int_o 10, .int_o 20, .int_o 30] :
        List Obj).drop 0).take 2)) ∧
    str_slice ['a', 'b', 'c'] 1 1 = some (.str_o []) ∧
    str_slice ['a', 'b', 'c'] 2 1 = some (.str_o (['a', 'b', 'c'].drop 2)) := by
  refine ⟨?_, ?_, ?_⟩
  · have h := slice_clamps_and_wraps.1 [.int_o 10, .int_o 20, .int_o 30] 0 2
    simpa using h
  · exact slice_clamps_and_wraps.2.1 ['a', 'b', 'c'] 1 1 (by norm_num)
  · exact slice_clamps_and_wraps.2.2 ['a', 'b', 'c'] 2 1 (by norm_num)
      (by norm_num) (by norm_num) (by norm_num)

/-- Helper: `unterminated` steps over an unremarkable character. -/
theorem unterminated_cons_other (ch : Char) (rest : List Char)
    (hq : ch ≠ '"') (hb : ch ≠ '\\') :
    unterminated (ch :: rest) = unterminated rest := by
  rw [unterminated.eq_def]
  split <;> simp_all

theorem escProcess_cons_other (ch : Char) (rest : List Char)
    (hq : ch ≠ '"') (hb : ch ≠ '\\') :
    escProcess (ch :: rest) = ch :: escProcess rest := by
  rw [escProcess.eq_def]
  split <;> simp_all

theorem read_string_cons_other (bufsize : Nat) (ch : Char) (rest : List Char)
    (count : Nat) (acc : List Char) (hq : ch ≠ '"') (hb : ch ≠ '\\') :
    read_string bufsize (ch :: rest) count acc =
      if count < bufsize then read_string bufsize rest (count + 1) (ch :: acc)
      else read_string bufsize rest count acc := by
  rw [read_string.eq_def]
  split <;> simp_all


/-- Helper: `read_string` run to end of file stores the escape-processed
input while `count` is below the buffer size. -/
theorem read_string_unterminated_spec (bufsize : Nat) :
    ∀ (input : List Char) (count : Nat) (acc : List Char),
      unterminated input = true →
      read_string bufsize input count acc =
        (acc.reverse ++ (escProcess input).take (bufsize - count), []) := by
  intro input count acc
  induction input, count, acc using read_string.induct bufsize with
  | case1 count acc =>
    intro h
    simp [read_string, escProcess]
  | case2 rest count acc =>
    intro h
    simp [unterminated] at h
  | case3 c r count acc e hesc hlt ih =>
    intro h
    simp only [unterminated, hesc] at h
    simp only [read_string, hesc, if_pos hlt]
    rw [ih h]
    have hbs : bufsize - count = (bufsize - (count + 1)) + 1 := by omega
    simp [escProcess, hesc, hbs, List.take_succ_cons]
  | case4 c r count acc e hesc hlt ih =>
    intro h
    simp only [unterminated, hesc] at h
    simp only [read_string, hesc, if_neg hlt]
    rw [ih h]
    have hbs : bufsize - count = 0 := by omega
    have hbs2 : bufsize - (count + 1) = 0 := by omega
    simp [escProcess, hesc, hbs, hbs2]
  | case5 c r count acc hesc hlt ih =>
    intro h
    simp only [unterminated, hesc] at h
    simp only [read_string, hesc, if_pos hlt]
    rw [ih h]
    have hbs : bufsize - count = (bufsize - (count + 1)) + 1 := by omega
    simp [escProcess, hesc, hbs, List.take_succ_cons]
  | case6 c r count acc hesc hlt ih =>
    intro h
    simp only [unterminated, hesc] at h
    simp only [read_string, hesc, if_neg hlt]
    rw [ih h]
    have hbs : bufsize - count = 0 := by omega
    simp [escProcess, hesc, hbs]
  | case7 count acc hlt ih =>
    intro h
    simp only [read_string, if_pos hlt]
    have hbs : bufsize - count = (bufsize - (count + 1)) + 1 := by omega
    simp [escProcess, hbs, List.take_succ_cons]
  | case8 count acc hlt ih =>
    intro h
    simp only [read_string, if_neg hlt]
    have hbs : bufsize - count = 0 := by omega
    simp [escProcess, hbs]
  | case9 ch rest count acc h1 h2 h3 hlt ih =>
    intro h
    have hq : ch ≠ '"' := fun he => h1 he
    have hb : ch ≠ '\\' := by
      intro he
      cases rest with
      | nil => exact h3 he rfl
      | cons c r => exact h2 c r he rfl
    rw [read_string_cons_other bufsize ch rest count acc hq hb, if_pos hlt]
    rw [unterminated_cons_other ch rest hq hb] at h
    rw [ih h]
    have hbs : bufsize - count = (bufsize - (count + 1)) + 1 := by omega
    rw [escProcess_cons_other ch rest hq hb]
    simp [hbs, List.take_succ_cons]
  | case10 ch rest count acc h1 h2 h3 hlt ih =>
    intro h
    have hq : ch ≠ '"' := fun he => h1 he
    have hb : ch ≠ '\\' := by
      intro he
      cases rest with
      | nil => exact h3 he rfl
      | cons c r => exact h2 c r he rfl
    rw [read_string_cons_other bufsize ch rest count acc hq hb, if_neg hlt]
    rw [unterminated_cons_other ch rest hq hb] at h
    rw [ih h]
    have hbs : bufsize - count = 0 := by omega
    have hbs2 : bufsize - (count + 1) = 0 := by omega
    rw [escProcess_cons_other ch rest hq hb]
    simp [hbs, hbs2]

/-- C9 amended: a string literal whose closing double quote is missing is
accepted silently — `read_string` stops at end of input, raises no error,
and returns a STR token whose lexeme is the escape-processed remaining
input TRUNCATED to the first `BUFSIZE` (128) stored characters (characters
past the buffer capacity are read but not stored). -/
theorem read_string_unterminated_truncates (input : List Char)
    (h : unterminated input = true) :
    read_string BUFSIZE input 0 [] = ((escProcess input).take BUFSIZE, []) := by
  have hs := read_string_unterminated_spec BUFSIZE input 0 [] h
  simpa using hs

/-- Witness for `read_string_unterminated_truncates` at the unterminated
input `abc` followed by a newline (no closing quote anywhere). -/
theorem read_string_unterminated_truncates_witness :
    read_string BUFSIZE ['a', 'b', 'c', '\n'] 0 [] =
      ((escProcess ['a', 'b', 'c', '\n']).take BUFSIZE, []) :=
  read_string_unterminated_truncates ['a', 'b', 'c', '\n'] rfl

/-- C9 counterexample: an unterminated literal of 130 characters keeps
only the first 128 — the lexeme does NOT contain every character read up
to end of file. -/
theorem read_string_long_input_truncated :
    read_string BUFSIZE (List.replicate 130 'a') 0 [] =
      (List.replicate 128 'a', []) ∧
    List.replicate 128 'a' ≠ List.replicate 130 'a' := by
  constructor
  · decide
  · intro hcontra
    have hlen := congrArg List.length hcontra
    simp at hlen

/-- Helper: full characterization of `if n <= 1: return 1` under the
evaluator — with at least 5 fuel it pushes INT 1 and sets the return flag
when `v <= 1` (and with at least 3 fuel leaves the state unchanged when
`v > 1`); with less fuel it runs out. -/
theorem eval_factStmt1 (f : Nat) (v : Int) (rest : List Frame) (stk : List Obj)
    (dr : Bool) (out : String) :
    visit f factStmt1 (factEnv v rest stk dr out) =
      if v ≤ 1 then
        (if 5 ≤ f then
          .ok { (factEnv v rest stk dr out) with stack := (Obj.int_o 1 :: stk), do_return := true }
         else .error .fuel)
      else
        (if 3 ≤ f then .ok (factEnv v rest stk dr out) else .error .fuel) := by
  have h1 : str_to_int "1" = .ok 1 := rfl
  rcases f with _ | _ | _ | _ | _ | f
  · simp [factStmt1, visit]
  · by_cases hv : v ≤ 1 <;>
      simp [factStmt1, factEnv, factFrame, visit, envPush, envPop, obj_leq,
        number_leq, obj_as_bool, obj_as_int, b2i, search, searchInScope,
        List.find?, h1, except_bind_ok, except_bind_error, isNumber, hv]
  · by_cases hv : v ≤ 1 <;>
      simp [factStmt1, factEnv, factFrame, visit, envPush, envPop, obj_leq,
        number_leq, obj_as_bool, obj_as_int, b2i, search, searchInScope,
        List.find?, h1, except_bind_ok, except_bind_error, isNumber, hv]
  · by_cases hv : v ≤ 1 <;>
      simp [factStmt1, factEnv, factFrame, visit, visitStmts, envPush, envPop,
        obj_leq, number_leq, obj_as_bool, obj_as_int, b2i, search,
        searchInScope, List.find?, h1, except_bind_ok, except_bind_error,
        isNumber, hv]
  · by_cases hv : v ≤ 1 <;>
      simp [factStmt1, factEnv, factFrame, visit, visitStmts, envPush, envPop,
        obj_leq, number_leq, obj_as_bool, obj_as_int, b2i, search,
        searchInScope, List.find?, h1, except_bind_ok, except_bind_error,
        isNumber, hv]
  · by_cases hv : v ≤ 1 <;>
      simp [factStmt1, factEnv, factFrame, visit, visitStmts, envPush, envPop,
        obj_leq, number_leq, obj_as_bool, obj_as_int, b2i, search,
        searchInScope, List.find?, h1, except_bind_ok, except_bind_error,
        isNumber, hv]

set_option maxHeartbeats 1000000 in
/-- Helper: with less than 6 fuel, `return n * fact(n - 1)` runs out of
fuel before reaching the recursive body. -/
theorem eval_factStmt2_low (f : Nat) (v : Int) (rest : List Frame)
    (stk : List Obj) (dr : Bool) (out : String) (hf : f < 6) :
    visit f factStmt2 (factEnv v rest stk dr out) = .error .fuel := by
  rcases f with _ | _ | _ | _ | _ | _ | f
  · simp [factStmt2, visit]
  · simp [factStmt2, visit, except_bind_error, except_bind_ok]
  · simp [factStmt2, factEnv, factFrame, visit, visitArgs, envPush, envPop,
      search, searchInScope, List.find?, except_bind_error, except_bind_ok]
  · simp [factStmt2, factEnv, factFrame, visit, visitArgs, envPush, envPop,
      search, searchInScope, List.find?, except_bind_error, except_bind_ok]
  · simp [factStmt2, factEnv, factFrame, visit, visitArgs, envPush, envPop,
      search, searchInScope, List.find?, except_bind_error, except_bind_ok]
  · simp [factStmt2, factEnv, factFrame, visit, visitArgs, envPush, envPop,
      search, searchInScope, List.find?, except_bind_error, except_bind_ok]
  · omega

set_option maxHeartbeats 1000000 in
/-- Helper: `return n * fact(n - 1)` always re-enters `fact`'s body (with
the argument `n - 1` and three units less fuel); if that nested execution
runs out of fuel, so does the statement. -/
theorem eval_factStmt2_diverges (f : Nat) (v : Int) (rest : List Frame)
    (gf : Frame) (stk : List Obj) (dr : Bool) (out : String)
    (hg : rest.getLast? = some gf)
    (hfact : searchInScope gf "fact" = some (.func_b factDecl))
    (hbody : ∀ (stk2 : List Obj) (dr2 : Bool) (out2 : String),
      visit (f + 3) factBody
        (factEnv (wrap64 (v - 1)) (factFrame v :: rest) stk2 dr2 out2) =
        .error .fuel) :
    visit (f + 6) factStmt2 (factEnv v rest stk dr out) = .error .fuel := by
  have hglc : (factFrame v :: rest).getLast? = some gf := by
    rcases rest with _ | ⟨a, t⟩
    · simp at hg
    · rw [List.getLast?_cons_cons, hg]
  have hsearch : search (factFrame v :: rest) "fact" = some (.func_b factDecl) := by
    have hfind := hfact
    simp [searchInScope] at hfind
    simp [search, searchInScope, List.find?, hglc, hfind]
  have hargs : visitArgs (f + 3)
      [.binary .SUB (.reference "n") (.literal .VT_INT "1")]
      (factEnv v rest stk dr out) [] =
      .ok ([.int_o (wrap64 (v - 1))], factEnv v rest stk dr out) := rfl
  have href : visit (f + 4) (.reference "n") (factEnv v rest stk dr out) =
      .ok (envPush (factEnv v rest stk dr out) (.int_o v)) := rfl
  have hpop : ∀ (e : Env) (o : Obj), envPop (envPush e o) = .ok (o, e) :=
    fun e o => rfl
  have hframes : (factEnv v rest stk dr out).frames = factFrame v :: rest := rfl
  simp only [factStmt2]
  unfold visit
  simp only [except_bind_ok, except_bind_error]
  unfold visit
  simp only [except_bind_ok, except_bind_error, href, hpop]
  unfold visit
  simp only [except_bind_ok, except_bind_error, hargs, hframes, hsearch,
    Bool.false_eq_true, if_false, factDecl]
  simp only [List.length_cons, List.length_nil, ne_eq, not_true_eq_false,
    if_false, bindParams, addBind, searchInScope, List.find?, obj_copy,
    List.headD, List.tail_cons, except_bind_ok, except_bind_error]
  simp only [factEnv, factFrame] at hbody
  simp only [factEnv, factFrame, List.nil_append, hbody, except_bind_error,
    except_bind_ok]

/-- Helper: executing `fact`'s body never terminates, for any fuel, any
argument value and any caller scope whose global frame binds `fact` — the
block loop of `visit_block` does not stop on `do_return`, so the second
statement `return n * fact(n - 1)` executes even after `return 1` did,
and the recursion descends forever. -/
theorem factBody_diverges : ∀ (fuel : Nat) (v : Int) (rest : List Frame)
    (gf : Frame) (stk : List Obj) (dr : Bool) (out : String),
    rest.getLast? = some gf →
    searchInScope gf "fact" = some (.func_b factDecl) →
    visit fuel factBody (factEnv v rest stk dr out) = .error .fuel := by
  intro fuel
  induction fuel using Nat.strong_induction_on with
  | _ fuel IH =>
    intro v rest gf stk dr out hg hfact
    rcases fuel with _ | n1
    · rfl
    have hstep : visit (n1 + 1) factBody (factEnv v rest stk dr out) =
        visitStmts n1 [factStmt1, factStmt2] (factEnv v rest stk dr out) := rfl
    rw [hstep]
    rcases n1 with _ | f1
    · rfl
    have hstep2 : visitStmts (f1 + 1) [factStmt1, factStmt2]
        (factEnv v rest stk dr out) =
        (do
          let env1 ← visit f1 factStmt1 (factEnv v rest stk dr out)
          visitStmts f1 [factStmt2] env1) := rfl
    rw [hstep2, eval_factStmt1 f1 v rest stk dr out]
    have hstmt2 : ∀ (f2 : Nat) (stk2 : List Obj) (dr2 : Bool),
        f2 < f1 + 2 →
        visit f2 factStmt2 (factEnv v rest stk2 dr2 out) = .error .fuel := by
      intro f2 stk2 dr2 hlt
      by_cases h6 : 6 ≤ f2
      · obtain ⟨f3, rfl⟩ : ∃ f3, f2 = f3 + 6 := ⟨f2 - 6, by omega⟩
        refine eval_factStmt2_diverges f3 v rest gf stk2 dr2 out hg hfact ?_
        intro stk3 dr3 out3
        have hglc : (factFrame v :: rest).getLast? = some gf := by
          rcases rest with _ | ⟨a, t⟩
          · simp at hg
          · rw [List.getLast?_cons_cons, hg]
        exact IH (f3 + 3) (by omega) (wrap64 (v - 1)) (factFrame v :: rest)
          gf stk3 dr3 out3 hglc hfact
      · exact eval_factStmt2_low f2 v rest stk2 dr2 out (by omega)
    by_cases hv : v ≤ 1
    · rw [if_pos hv]
      by_cases h5 : 5 ≤ f1
      · rw [if_pos h5, except_bind_ok]
        have henv : ({ (factEnv v rest stk dr out) with
            stack := (Obj.int_o 1 :: stk), do_return := true } : Env) =
            factEnv v rest (Obj.int_o 1 :: stk) true out := rfl
        rw [henv]
        obtain ⟨f2, rfl⟩ : ∃ f2, f1 = f2 + 1 := ⟨f1 - 1, by omega⟩
        have hstep3 : visitStmts (f2 + 1) [factStmt2]
            (factEnv v rest (Obj.int_o 1 :: stk) true out) =
            (do
              let env2 ← visit f2 factStmt2
                (factEnv v rest (Obj.int_o 1 :: stk) true out)
              visitStmts f2 [] env2) := rfl
        rw [hstep3, hstmt2 f2 (Obj.int_o 1 :: stk) true (by omega),
           except_bind_error]
      · rw [if_neg h5, except_bind_error]
    · rw [if_neg hv]
      by_cases h3 : 3 ≤ f1
      · rw [if_pos h3, except_bind_ok]
        obtain ⟨f2, rfl⟩ : ∃ f2, f1 = f2 + 1 := ⟨f1 - 1, by omega⟩
        have hstep3 : visitStmts (f2 + 1) [factStmt2]
            (factEnv v rest stk dr out) =
            (do
              let env2 ← visit f2 factStmt2 (factEnv v rest stk dr out)
              visitStmts f2 [] env2) := rfl
        rw [hstep3, hstmt2 f2 stk dr (by omega), except_bind_error]
      · rw [if_neg h3, except_bind_error]

set_option maxHeartbeats 1000000 in
/-- C1: the factorial program `def fact(n) / if n <= 1 / return 1 /
return n * fact(n - 1) / print fact(6)` does NOT terminate under the
evaluator: for every fuel bound the run is still unfinished (and in
particular it never prints 720 and never exits with status 0).  The cause:
`visit_block`'s loop condition tests only `do_break`/`do_continue`, so
after `return 1` sets `do_return` inside `fact(1)`, the block still
executes `return n * fact(n - 1)`, which calls `fact(0)`, `fact(-1)`, ...
without end. -/
theorem fact_program_diverges (fuel : Nat) :
    visit fuel factProgram initialEnv = .error .fuel := by
  rcases fuel with _ | _ | _ | _ | _ | _ | _ | _ | m
  · rfl
  · rfl
  · rfl
  · rfl
  · rfl
  · rfl
  · rfl
  · rfl
  have hargs6 : visitArgs (m + 2) [.literal .VT_INT "6"]
      { frames := [[("fact", Binding.func_b factDecl)]], stack := [],
        do_break := false, do_continue := false, do_return := false,
        output := "" } [] =
      .ok ([.int_o 6],
        { frames := [[("fact", Binding.func_b factDecl)]], stack := [],
          do_break := false, do_continue := false, do_return := false,
          output := "" }) := rfl
  have hbody := factBody_diverges (m + 2) 6 [[("fact", Binding.func_b factDecl)]]
    [("fact", Binding.func_b factDecl)] [] false "" rfl rfl
  simp only [factProgram]
  unfold visit
  simp only [except_bind_ok, except_bind_error]
  unfold visitStmts
  simp only [except_bind_ok, except_bind_error]
  unfold visit
  simp only [initialEnv, addBind, searchInScope, List.find?, List.headD,
    List.tail_cons, List.nil_append, except_bind_ok, except_bind_error]
  unfold visitStmts
  simp only [except_bind_ok, except_bind_error, Bool.or_self, Bool.false_or,
    if_false]
  unfold visit
  simp only [except_bind_ok, except_bind_error]
  unfold visitPrint
  simp only [except_bind_ok, except_bind_error]
  unfold visit
  simp only [except_bind_ok, except_bind_error, hargs6, search, searchInScope,
    List.find?, List.headD, List.getLastD, factDecl, List.length_cons,
    List.length_nil, ne_eq, not_true_eq_false, if_false, bindParams, addBind,
    obj_copy, List.tail_cons, List.nil_append]
  simp only [factEnv, factFrame] at hbody
  simp only [factDecl] at hargs6 hbody
  simp [hargs6, hbody, search, searchInScope, List.find?, bindParams, addBind,
    obj_copy, except_bind_ok, except_bind_error]

end Exin
